import Mathlib

/-!
# The Windows agent: route client, firewall rules, bridge preparation, CNI helpers

A shallow embedding of four pieces of the agent.

* `pkg/agent/route/route_windows.go`: the route cache (`hostRoutes`), the
  calls the client makes on the platform routing API (`netroute.Interface`),
  the operations `Reconcile`, `AddRoutes` and `DeleteRoutes`, and the firewall
  rules of `initFwRules`.
* `pkg/agent/agent_windows.go`: `prepareOVSBridge`.
* `pkg/agent/cniserver/server_windows.go`: `getInfraContainer` and the JSON
  form of `OVSPortParam`.

Conventions of the embedding.

* A Go `error` is an `Option String`; `none` is `nil`.
* A Go string is a Lean string, and a byte slice that holds text is one too.
* `net.IP` and `net.IPMask` are byte lists (a nil slice is the empty list);
  the functions of package `net` that the agent calls (`To4`, `Equal`,
  `IsGlobalUnicast`, `IPNet.String`, `ParseMAC`) are transcribed from the Go
  library.
* The platform is a state: its routing table, the outcomes of the calls still
  to come (an error message, or `none` for success; once the list is used up
  every call succeeds) and the log of the calls made so far.  A call that
  fails leaves the routing table as it was; a removal that succeeds deletes
  the rows with the link index, destination subnet and next hop it names and
  no other row.  The firewall store and what
  `prepareOVSBridge` acts on are states of the same kind.
* `sync.Map` and the Go map built by `listRoutes` are association lists with
  at most one entry per key after every `Store`; the most recently stored key
  comes first, and ranging over the map follows the list (Go leaves that
  order open).
* The route client is one that `Initialize` has run on: `nodeConfig` and its
  `GatewayConfig` are set.
-/

namespace Antrea

/-! ## Package `net` -/

/-- Go `net.IP`. -/
abbrev IP := List Nat

/-- Go `net.IPMask`. -/
abbrev IPMask := List Nat

/-- Go `net.IPNet`. -/
structure IPNet where
  IP : Antrea.IP
  Mask : IPMask
deriving DecidableEq, Repr

/-- The twelve bytes that open an IPv4 address held in sixteen bytes. -/
def v4InV6 : List Nat := [0, 0, 0, 0, 0, 0, 0, 0, 0, 0, 0xff, 0xff]

/-- Go `IP.To4`: the four-byte form of an IPv4 address, `none` for Go nil. -/
def IP.To4 (ip : IP) : Option IP :=
  if ip.length = 4 then some ip
  else if ip.length = 16 ∧ ip.take 12 = v4InV6 then some (ip.drop 12)
  else none

/-- Go `IP.Equal`: equality of addresses, the four-byte and the sixteen-byte
form of an IPv4 address being equal. -/
def IP.Equal (ip x : IP) : Bool :=
  if ip.length = x.length then decide (ip = x)
  else if ip.length = 4 ∧ x.length = 16 then
    decide (x.take 12 = v4InV6) && decide (ip = x.drop 12)
  else if ip.length = 16 ∧ x.length = 4 then
    decide (ip.take 12 = v4InV6) && decide (ip.drop 12 = x)
  else false

/-- Go `net.IPv4(a, b, c, d)`: the sixteen-byte form. -/
def IPv4 (a b c d : Nat) : IP := v4InV6 ++ [a, b, c, d]

/-- Go `IP.IsUnspecified`. -/
def IP.IsUnspecified (ip : IP) : Bool :=
  IP.Equal ip (IPv4 0 0 0 0) || IP.Equal ip (List.replicate 16 0)

/-- Go `IP.IsLoopback`. -/
def IP.IsLoopback (ip : IP) : Bool :=
  match IP.To4 ip with
  | some ip4 => decide (ip4.getD 0 0 = 127)
  | none => IP.Equal ip (List.replicate 15 0 ++ [1])

/-- Go `IP.IsMulticast`. -/
def IP.IsMulticast (ip : IP) : Bool :=
  match IP.To4 ip with
  | some ip4 => decide (ip4.getD 0 0 &&& 0xf0 = 0xe0)
  | none => decide (ip.length = 16) && decide (ip.getD 0 0 = 0xff)

/-- Go `IP.IsLinkLocalUnicast`. -/
def IP.IsLinkLocalUnicast (ip : IP) : Bool :=
  match IP.To4 ip with
  | some ip4 => decide (ip4.getD 0 0 = 169) && decide (ip4.getD 1 0 = 254)
  | none =>
    decide (ip.length = 16) && decide (ip.getD 0 0 = 0xfe)
      && decide (ip.getD 1 0 &&& 0xc0 = 0x80)

/-- Go `IP.IsGlobalUnicast`. -/
def IP.IsGlobalUnicast (ip : IP) : Bool :=
  (decide (ip.length = 4) || decide (ip.length = 16))
    && !IP.Equal ip (IPv4 255 255 255 255)
    && !IP.IsUnspecified ip
    && !IP.IsLoopback ip
    && !IP.IsMulticast ip
    && !IP.IsLinkLocalUnicast ip

/-- Decimal digits of a number (Go `uitoa`). -/
def uitoa (n : Nat) : String := String.mk (Nat.toDigits 10 n)

/-- Lower-case hexadecimal digits of a number without leading zeros
(Go `appendHex`). -/
def appendHex (n : Nat) : String := String.mk (Nat.toDigits 16 n)

/-- Go `hexString`: two lower-case hexadecimal digits for every byte. -/
def hexString (b : List Nat) : String :=
  String.mk (b.flatMap fun v => [Nat.digitChar (v / 16 % 16), Nat.digitChar (v % 16)])

/-- The sixteen-bit groups of a sixteen-byte address. -/
def groups : List Nat → List Nat
  | hi :: lo :: rest => (hi * 256 + lo) :: groups rest
  | _ => []

/-- Number of zero groups a list of groups starts with. -/
def zeroRun : List Nat → Nat
  | 0 :: rest => zeroRun rest + 1
  | _ => 0

/-- Start and length of the first longest run of zero groups, scanning from
group `i` with `best` the longest seen before. -/
def bestRun : List Nat → Nat → Nat × Nat → Nat × Nat
  | [], _, best => best
  | g :: rest, i, best =>
    bestRun rest (i + 1) (if zeroRun (g :: rest) > best.2 then (i, zeroRun (g :: rest)) else best)

/-- Go `IP.String`. -/
def IP.String (ip : IP) : String :=
  if ip.length = 0 then "<nil>"
  else
    match IP.To4 ip with
    | some p4 => ".".intercalate (p4.map uitoa)
    | none =>
      if ip.length ≠ 16 then "?" ++ hexString ip
      else
        let gs := groups ip
        let run := bestRun gs 0 (0, 0)
        if run.2 ≤ 1 then ":".intercalate (gs.map appendHex)
        else
          ":".intercalate ((gs.take run.1).map appendHex) ++ "::"
            ++ ":".intercalate ((gs.drop (run.1 + run.2)).map appendHex)

/-- Number of one bits a byte starts with, and whether the bits after them
are all zero. -/
def leadingOnes (v : Nat) : Option Nat :=
  if v % 256 = 0 then some 0
  else if v % 256 = 0x80 then some 1
  else if v % 256 = 0xc0 then some 2
  else if v % 256 = 0xe0 then some 3
  else if v % 256 = 0xf0 then some 4
  else if v % 256 = 0xf8 then some 5
  else if v % 256 = 0xfc then some 6
  else if v % 256 = 0xfe then some 7
  else none

/-- Go `simpleMaskLength`: the number of leading ones of a mask made of ones
followed by zeros, `none` (Go -1) for any other mask. -/
def simpleMaskLength : IPMask → Option Nat
  | [] => some 0
  | v :: rest =>
    if v = 0xff then (simpleMaskLength rest).map (· + 8)
    else
      match leadingOnes v with
      | none => none
      | some n => if rest.all (· == 0) then some n else none

/-- Go `networkNumberAndMask`. -/
def networkNumberAndMask (n : IPNet) : Option (IP × IPMask) :=
  let ip? : Option IP :=
    match IP.To4 n.IP with
    | some ip4 => some ip4
    | none => if n.IP.length ≠ 16 then none else some n.IP
  match ip? with
  | none => none
  | some ip =>
    if n.Mask.length = 4 then
      if ip.length ≠ 4 then none else some (ip, n.Mask)
    else if n.Mask.length = 16 then
      if ip.length = 4 then some (ip, n.Mask.drop 12) else some (ip, n.Mask)
    else none

/-- Go `IPMask.String`. -/
def IPMask.String (m : IPMask) : String :=
  if m.length = 0 then "<nil>" else hexString m

/-- Go `IPNet.String`: the CIDR string that keys the route cache. -/
def IPNet.String (n : IPNet) : String :=
  match networkNumberAndMask n with
  | none => "<nil>"
  | some (nn, m) =>
    match simpleMaskLength m with
    | none => IP.String nn ++ "/" ++ IPMask.String m
    | some l => IP.String nn ++ "/" ++ uitoa l

/-- Modelled from the spec: `util.GetLocalBroadcastIP` is not among the
sources; the spec calls its result the local broadcast address of the subnet,
which is the last address of the subnet: the address with every host bit set. -/
def GetLocalBroadcastIP (ipNet : IPNet) : IP :=
  match IP.To4 ipNet.IP, IP.To4 ipNet.Mask with
  | some ip4, some m4 => List.zipWith (fun a m => a ||| (m % 256 ^^^ 0xff)) ip4 m4
  | _, _ => []

/-! ## The platform routing API (`netroute.Interface`) -/

/-- Go `netroute.Route`. -/
structure Route where
  LinkIndex : Int
  DestinationSubnet : IPNet
  GatewayAddress : IP
deriving DecidableEq, Repr

/-- A call on the platform routing API, with its arguments. -/
inductive Call where
  | GetNetRoutesAll
  | NewNetRoute (linkIndex : Int) (destinationSubnet : IPNet) (gatewayAddress : IP)
  | RemoveNetRoute (linkIndex : Int) (destinationSubnet : IPNet) (gatewayAddress : IP)
deriving DecidableEq, Repr

/-- The platform: the host routing table, the outcomes of the calls to come
and the calls made so far, oldest first. -/
structure Platform where
  routes : List Route
  outcomes : List (Option String)
  calls : List Call
deriving DecidableEq, Repr

/-- Outcome of the next platform call. -/
def Platform.nextErr (p : Platform) : Option String := p.outcomes.headD none

/-- The platform after a call has been logged and its outcome used. -/
def Platform.record (p : Platform) (call : Call) : Platform :=
  { p with outcomes := p.outcomes.tail, calls := p.calls ++ [call] }

/-- Whether a row of the routing table is the route a removal names: the row
has that link index, that destination subnet and that next hop, next hops
being compared as addresses. -/
def Route.matches (r : Route) (linkIndex : Int) (destinationSubnet : IPNet)
    (gatewayAddress : IP) : Bool :=
  decide (r.LinkIndex = linkIndex)
    && decide (r.DestinationSubnet = destinationSubnet)
    && IP.Equal r.GatewayAddress gatewayAddress

/-- Platform call `GetNetRoutesAll`. -/
def GetNetRoutesAll (p : Platform) : Except String (List Route) × Platform :=
  match p.nextErr with
  | some e => (.error e, p.record .GetNetRoutesAll)
  | none => (.ok p.routes, p.record .GetNetRoutesAll)

/-- Platform call `NewNetRoute`. -/
def NewNetRoute (p : Platform) (linkIndex : Int) (destinationSubnet : IPNet)
    (gatewayAddress : IP) : Option String × Platform :=
  let p1 := p.record (.NewNetRoute linkIndex destinationSubnet gatewayAddress)
  match p.nextErr with
  | some e => (some e, p1)
  | none =>
    (none, { p1 with routes := p.routes ++ [⟨linkIndex, destinationSubnet, gatewayAddress⟩] })

/-- Platform call `RemoveNetRoute`. -/
def RemoveNetRoute (p : Platform) (linkIndex : Int) (destinationSubnet : IPNet)
    (gatewayAddress : IP) : Option String × Platform :=
  let p1 := p.record (.RemoveNetRoute linkIndex destinationSubnet gatewayAddress)
  match p.nextErr with
  | some e => (some e, p1)
  | none =>
    (none, { p1 with routes :=
      p.routes.filter fun r => !r.matches linkIndex destinationSubnet gatewayAddress })

/-! ## The route client -/

/-- Go `config.GatewayConfig`, the field the route client reads. -/
structure GatewayConfig where
  LinkIndex : Int
deriving DecidableEq, Repr

/-- Go `config.NodeConfig`, the fields the route client reads. -/
structure NodeConfig where
  Name : String
  PodCIDR : Option IPNet
  BridgeName : String
  GatewayConfig : Antrea.GatewayConfig
deriving DecidableEq, Repr

/-- A map from destination CIDR string to route: `sync.Map` of the client and
the Go map of `listRoutes`. -/
abbrev RouteMap := List (String × Route)

/-- Map lookup (`sync.Map.Load`). -/
def RouteMap.Load : RouteMap → String → Option Route
  | [], _ => none
  | (k, v) :: m, key => if k = key then some v else RouteMap.Load m key

/-- Map removal (`sync.Map.Delete`). -/
def RouteMap.Delete (m : RouteMap) (key : String) : RouteMap :=
  m.filter fun e => decide (e.1 ≠ key)

/-- Map insertion (`sync.Map.Store`, Go map assignment). -/
def RouteMap.Store (m : RouteMap) (key : String) (value : Route) : RouteMap :=
  (key, value) :: RouteMap.Delete m key

/-- Go `Client`. -/
structure Client where
  nr : Platform
  nodeConfig : NodeConfig
  serviceCIDR : Option IPNet
  hostRoutes : RouteMap
deriving DecidableEq, Repr

/-- The loop of `listRoutes` over the enumerated routes. -/
def listRoutesLoop (linkIndex : Int) : List Route → RouteMap → RouteMap
  | [], rtMap => rtMap
  | rt :: routes, rtMap =>
    if rt.LinkIndex ≠ linkIndex then listRoutesLoop linkIndex routes rtMap
    else if IP.To4 rt.DestinationSubnet.IP = none then listRoutesLoop linkIndex routes rtMap
    else if !IP.IsGlobalUnicast rt.DestinationSubnet.IP then
      listRoutesLoop linkIndex routes rtMap
    else if IP.Equal rt.DestinationSubnet.IP (GetLocalBroadcastIP rt.DestinationSubnet) then
      listRoutesLoop linkIndex routes rtMap
    else
      listRoutesLoop linkIndex routes (rtMap.Store rt.DestinationSubnet.String rt)

/-- Go `Client.listRoutes`. -/
def Client.listRoutes (c : Client) : Except String RouteMap × Platform :=
  match GetNetRoutesAll c.nr with
  | (.error e, p) => (.error e, p)
  | (.ok routes, p) => (.ok (listRoutesLoop c.nodeConfig.GatewayConfig.LinkIndex routes []), p)

/-- The loop of `Reconcile` over the listed routes. -/
def reconcileLoop (desiredPodCIDRs : List String) :
    List (String × Route) → RouteMap → Platform → Option String × RouteMap × Platform
  | [], hostRoutes, p => (none, hostRoutes, p)
  | (dst, rt) :: rest, hostRoutes, p =>
    if dst ∈ desiredPodCIDRs then
      reconcileLoop desiredPodCIDRs rest (hostRoutes.Store dst rt) p
    else
      match RemoveNetRoute p rt.LinkIndex rt.DestinationSubnet rt.GatewayAddress with
      | (some e, p1) => (some e, hostRoutes, p1)
      | (none, p1) => reconcileLoop desiredPodCIDRs rest hostRoutes p1

/-- Go `Client.Reconcile`. -/
def Client.Reconcile (c : Client) (podCIDRs : List String) : Option String × Client :=
  match c.listRoutes with
  | (.error e, p) => (some e, { c with nr := p })
  | (.ok routes, p) =>
    match reconcileLoop podCIDRs routes c.hostRoutes p with
    | (err, hostRoutes, p1) => (err, { c with nr := p1, hostRoutes := hostRoutes })

/-- Go `Client.AddRoutes`. -/
def Client.AddRoutes (c : Client) (podCIDR : IPNet) (_peerNodeIP peerGwIP : IP) :
    Option String × Client :=
  let add (p : Platform) : Option String × Client :=
    match NewNetRoute p c.nodeConfig.GatewayConfig.LinkIndex podCIDR peerGwIP with
    | (some e, p1) => (some e, { c with nr := p1 })
    | (none, p1) =>
      (none, { c with
        nr := p1
        hostRoutes := c.hostRoutes.Store podCIDR.String
          ⟨c.nodeConfig.GatewayConfig.LinkIndex, podCIDR, peerGwIP⟩ })
  match c.hostRoutes.Load podCIDR.String with
  | some rt =>
    if IP.Equal rt.GatewayAddress peerGwIP then (none, c)
    else
      match RemoveNetRoute c.nr rt.LinkIndex rt.DestinationSubnet rt.GatewayAddress with
      | (some e, p1) => (some e, { c with nr := p1 })
      | (none, p1) => add p1
  | none => add c.nr

/-- Go `Client.DeleteRoutes`. -/
def Client.DeleteRoutes (c : Client) (podCIDR : IPNet) : Option String × Client :=
  match c.hostRoutes.Load podCIDR.String with
  | none => (none, c)
  | some rt =>
    match RemoveNetRoute c.nr rt.LinkIndex rt.DestinationSubnet rt.GatewayAddress with
    | (some e, p1) => (some e, { c with nr := p1 })
    | (none, p1) => (none, { c with nr := p1, hostRoutes := c.hostRoutes.Delete podCIDR.String })

/-- The conditions under which the loop of `listRoutes` keeps a route: it is
on the gateway link, its destination is IPv4, global unicast, and is not the
local broadcast address of the destination subnet. -/
def Route.ours (linkIndex : Int) (rt : Route) : Bool :=
  decide (rt.LinkIndex = linkIndex)
    && (IP.To4 rt.DestinationSubnet.IP).isSome
    && IP.IsGlobalUnicast rt.DestinationSubnet.IP
    && !IP.Equal rt.DestinationSubnet.IP (GetLocalBroadcastIP rt.DestinationSubnet)

/-! ## Concrete values of `TestRouteOperation` -/

/-- The four-byte mask of a 24-bit IPv4 subnet. -/
def mask24 : IPMask := [255, 255, 255, 0]

/-- The four-byte mask of a single IPv4 address. -/
def mask32 : IPMask := [255, 255, 255, 255]

/-- Subnet `192.168.2.0/24`. -/
def destCIDR1 : IPNet := ⟨[192, 168, 2, 0], mask24⟩

/-- Subnet `192.168.3.0/24`. -/
def destCIDR2 : IPNet := ⟨[192, 168, 3, 0], mask24⟩

/-- Subnet `192.168.4.0/24`. -/
def destCIDR3 : IPNet := ⟨[192, 168, 4, 0], mask24⟩

/-- Address `10.0.0.2`. -/
def peerNodeIP : IP := IPv4 10 0 0 2

/-- Address `192.168.2.1`. -/
def gwIP1 : IP := IPv4 192 168 2 1

/-- Address `192.168.3.1`. -/
def gwIP2 : IP := IPv4 192 168 3 1

/-- Address `192.168.4.1`. -/
def gwIP3 : IP := IPv4 192 168 4 1

/-- A client on gateway link 1 with an empty cache, over a platform with the
given routing table and call outcomes. -/
def client0 (routes : List Route) (outcomes : List (Option String)) : Client :=
  { nr := ⟨routes, outcomes, []⟩
    nodeConfig := ⟨"node1", none, "br-int", ⟨1⟩⟩
    serviceCIDR := none
    hostRoutes := [] }

/-! ## The host firewall (`winFirewallRule`, `initFwRules`) -/

/-- Name of the rule that accepts packets from local Pods. -/
def inboundFirewallRuleName : String := "Antrea: accept packets from local pods"

/-- Name of the rule that accepts packets to local Pods. -/
def outboundFirewallRuleName : String := "Antrea: accept packets to local pods"

/-- Go `fwRuleAction`. -/
abbrev fwRuleAction := String

/-- Go `fwRuleAllow`. -/
def fwRuleAllow : fwRuleAction := "Allow"

/-- Go `fwRuleDeny`. -/
def fwRuleDeny : fwRuleAction := "Block"

/-- Go `fwRuleDirection`. -/
abbrev fwRuleDirection := String

/-- Go `fwRuleIn`. -/
def fwRuleIn : fwRuleDirection := "Inbound"

/-- Go `fwRuleOut`. -/
def fwRuleOut : fwRuleDirection := "Outbound"

/-- Go `fwRuleProtocol`. -/
abbrev fwRuleProtocol := String

/-- Go `fwRuleIPProtocol`. -/
def fwRuleIPProtocol : fwRuleProtocol := "Any"

/-- Go `fwRuleTCPProtocol`. -/
def fwRuleTCPProtocol : fwRuleProtocol := "TCP"

/-- Go `fwRuleUDPProtocol`. -/
def fwRuleUDPProtocol : fwRuleProtocol := "UDP"

/-- Go `winFirewallRule`; a nil address is `none`, the ports are `uint16`. -/
structure winFirewallRule where
  name : String
  action : fwRuleAction
  direction : fwRuleDirection
  protocol : fwRuleProtocol
  localAddress : Option IPNet
  remoteAddress : Option IPNet
  localPorts : List Nat
  remotePorts : List Nat
deriving DecidableEq, Repr

/-- Go `getPortsString`. -/
def getPortsString (ports : List Nat) : String :=
  ",".intercalate (ports.map uitoa)

/-- Go `winFirewallRule.getCommandString`. -/
def winFirewallRule.getCommandString (r : winFirewallRule) : String :=
  let cmd := "-Name '" ++ r.name ++ "' -DisplayName '" ++ r.name ++ "' -Direction "
    ++ r.direction ++ " -Action " ++ r.action ++ " -Protocol " ++ r.protocol
  let cmd :=
    match r.localAddress with
    | some a => cmd ++ " -LocalAddress " ++ a.String
    | none => cmd
  let cmd :=
    match r.remoteAddress with
    | some a => cmd ++ " -RemoteAddress " ++ a.String
    | none => cmd
  let cmd :=
    if r.localPorts.length > 0 then cmd ++ " -LocalPort " ++ getPortsString r.localPorts
    else cmd
  if r.remotePorts.length > 0 then cmd ++ " -RemotePort " ++ getPortsString r.remotePorts
  else cmd

/-- A call on the platform firewall API. -/
inductive FwCall where
  | FirewallRuleExists (name : String)
  | AddFirewallRule (cmd : String)
deriving DecidableEq, Repr

/-- The platform firewall: the rules of the store, each with its name and the
command that created it, the outcomes of the calls to come and the calls made
so far. -/
structure Firewall where
  rules : List (String × String)
  outcomes : List (Option String)
  calls : List FwCall
deriving DecidableEq, Repr

/-- Whether the store has a rule of the given name. -/
def Firewall.has (fw : Firewall) (name : String) : Bool :=
  fw.rules.any fun r => decide (r.1 = name)

/-- Modelled from the spec: `util.FirewallRuleExists` is not among the
sources; the spec has existence queried by name against the platform firewall
store. -/
def FirewallRuleExists (fw : Firewall) (name : String) : Except String Bool × Firewall :=
  let fw1 := { fw with
    outcomes := fw.outcomes.tail, calls := fw.calls ++ [FwCall.FirewallRuleExists name] }
  match fw.outcomes.headD none with
  | some e => (.error e, fw1)
  | none => (.ok (fw.has name), fw1)

/-- Go `winFirewallRule.Add`.  Modelled from the spec: `util.AddFirewallRule`
is not among the sources; the rule that the command creates is filed in the
store under the name the command gives, rule identity being name-based. -/
def winFirewallRule.Add (r : winFirewallRule) (fw : Firewall) : Option String × Firewall :=
  let cmd := r.getCommandString
  let fw1 := { fw with
    outcomes := fw.outcomes.tail, calls := fw.calls ++ [FwCall.AddFirewallRule cmd] }
  match fw.outcomes.headD none with
  | some e => (some e, fw1)
  | none => (none, { fw1 with rules := fw.rules ++ [(r.name, cmd)] })

/-- Go `Client.initFwRules`; the receiver is not used. -/
def initFwRules (nodeConfig : NodeConfig) (fw : Firewall) : Option String × Firewall :=
  let outbound (fw : Firewall) : Option String × Firewall :=
    match FirewallRuleExists fw outboundFirewallRuleName with
    | (.error e, fw1) => (some e, fw1)
    | (.ok exist, fw1) =>
      if !exist then
        let outRule : winFirewallRule :=
          { name := outboundFirewallRuleName
            action := fwRuleAllow
            direction := fwRuleOut
            protocol := fwRuleIPProtocol
            localAddress := nodeConfig.PodCIDR
            remoteAddress := none
            localPorts := []
            remotePorts := [] }
        match outRule.Add fw1 with
        | (some e, fw2) => (some e, fw2)
        | (none, fw2) => (none, fw2)
      else (none, fw1)
  match FirewallRuleExists fw inboundFirewallRuleName with
  | (.error e, fw1) => (some e, fw1)
  | (.ok exist, fw1) =>
    if !exist then
      let inRule : winFirewallRule :=
        { name := inboundFirewallRuleName
          action := fwRuleAllow
          direction := fwRuleIn
          protocol := fwRuleIPProtocol
          localAddress := none
          remoteAddress := nodeConfig.PodCIDR
          localPorts := []
          remotePorts := [] }
      match inRule.Add fw1 with
      | (some e, fw2) => (some e, fw2)
      | (none, fw2) => outbound fw2
    else outbound fw1

/-- Subnet `2.2.2.0/24`, the Pod CIDR of `TestWinFirewallRules`. -/
def podCIDR : IPNet := ⟨[2, 2, 2, 0], mask24⟩

/-- Node configuration of `TestWinFirewallRules`. -/
def nodeConfig1 : NodeConfig := ⟨"node1", some podCIDR, "", ⟨0⟩⟩

/-! ## The CNI server (`pkg/agent/cniserver/server_windows.go`) -/

/-- Network namespace of an infra container. -/
def infraContainerNetNS : String := "none"

/-- Go `strings.Contains` for a separator of one character. -/
def strings.Contains (s : String) (sep : Char) : Bool := decide (sep ∈ s.data)

/-- Go `strings.Split` for a separator of one character, on the characters of
the string: the pieces between the separators, one more than there are
separators. -/
def strings.Split : List Char → Char → List (List Char)
  | [], _ => [[]]
  | c :: cs, sep =>
    if c = sep then [] :: strings.Split cs sep
    else
      match strings.Split cs sep with
      | [] => [[c]]
      | piece :: pieces => (c :: piece) :: pieces

/-- Go `unicode.IsSpace`. -/
def unicode.IsSpace (c : Char) : Bool :=
  let n := c.toNat
  (9 ≤ n ∧ n ≤ 13) || n = 0x20 || n = 0x85 || n = 0xA0 || n = 0x1680
    || (0x2000 ≤ n ∧ n ≤ 0x200a) || n = 0x2028 || n = 0x2029 || n = 0x202f
    || n = 0x205f || n = 0x3000

/-- Go `strings.TrimSpace`. -/
def strings.TrimSpace (s : List Char) : List Char :=
  ((s.dropWhile unicode.IsSpace).reverse.dropWhile unicode.IsSpace).reverse

/-- Go `isInfraContainer`. -/
def isInfraContainer (netNS : String) : Bool :=
  decide (netNS = infraContainerNetNS) || !strings.Contains netNS ':'

/-- Go `isContainerdInfaContainer`. -/
def isContainerdInfaContainer (netNs : String) : Bool :=
  decide (netNs ≠ infraContainerNetNS) && !strings.Contains netNs ':'

/-- Go `getInfraContainer`. -/
def getInfraContainer (containerID netNS : String) : String :=
  if isInfraContainer netNS then containerID
  else
    let parts := strings.Split netNS.data ':'
    if parts.length ≠ 2 then containerID
    else String.mk (strings.TrimSpace (parts.getD 1 []))

/-- Go CNI `current.Interface`. -/
structure Interface where
  Name : String
  Mac : String
  Sandbox : String
deriving DecidableEq, Repr

/-- Go CNI `current.IPConfig`. -/
structure IPConfig where
  Version : String
  Interface : Option Int
  Address : IPNet
  Gateway : IP
deriving DecidableEq, Repr

/-- Go `OVSPortParam`; a nil interface pointer is `none`. -/
structure OVSPortParam where
  PodName : String
  PodNameSpace : String
  ContainerID : String
  HostIface : Option Interface
  ContainerIface : Option Interface
  Ips : List IPConfig
deriving DecidableEq, Repr

/-- Go `ovsPortParamInternal`. -/
structure ovsPortParamInternal where
  PodName : String
  PodNameSpace : String
  ContainerID : String
  HostIface : Interface
  ContainerIface : Interface
  Ips : List String
deriving DecidableEq, Repr

/-- The library functions the port parameters are encoded with, taken as
parameters: `json.Marshal` and `json.Unmarshal` at type `ovsPortParamInternal`
(the latter into a zero value), and `MarshalJSON` and `UnmarshalJSON` of
`current.IPConfig`. Byte slices are strings. -/
structure JSON where
  Marshal : ovsPortParamInternal → Except String String
  Unmarshal : String → Except String ovsPortParamInternal
  IPConfigMarshalJSON : IPConfig → Except String String
  IPConfigUnmarshalJSON : String → Except String IPConfig

/-- Result of a Go function that returns a value and an error, or panics. -/
inductive GoResult (α : Type) where
  | ok (value : α)
  | error (err : String)
  | panic
deriving DecidableEq, Repr

/-- The loop that marshals the IP configurations, stopping at the first
error. -/
def marshalIps (json : JSON) : List IPConfig → Except String (List String)
  | [] => .ok []
  | ip :: ips =>
    match json.IPConfigMarshalJSON ip with
    | .error err => .error err
    | .ok ipStr =>
      match marshalIps json ips with
      | .error err => .error err
      | .ok ipsString => .ok (ipStr :: ipsString)

/-- The loop that parses the IP configurations, stopping at the first error. -/
def unmarshalIps (json : JSON) : List String → Except String (List IPConfig)
  | [] => .ok []
  | ipStr :: ips =>
    match json.IPConfigUnmarshalJSON ipStr with
    | .error err => .error err
    | .ok ipConfig =>
      match unmarshalIps json ips with
      | .error err => .error err
      | .ok ipConfigs => .ok (ipConfig :: ipConfigs)

/-- Go `OVSPortParam.MarshalJson`; dereferencing a nil interface panics. -/
def OVSPortParam.MarshalJson (json : JSON) (ovsPortParam : OVSPortParam) : GoResult String :=
  match marshalIps json ovsPortParam.Ips with
  | .error err => .error err
  | .ok ipsString =>
    match ovsPortParam.HostIface, ovsPortParam.ContainerIface with
    | some hostIface, some containerIface =>
      match json.Marshal
          { PodName := ovsPortParam.PodName
            PodNameSpace := ovsPortParam.PodNameSpace
            ContainerID := ovsPortParam.ContainerID
            HostIface := hostIface
            ContainerIface := containerIface
            Ips := ipsString } with
      | .error err => .error err
      | .ok data => .ok data
    | _, _ => .panic

/-- Go `OVSPortParam.UnmarshalJson`: the error and the receiver after the
call. The parsed IP configurations are collected in a local slice that is not
assigned to the receiver. -/
def OVSPortParam.UnmarshalJson (json : JSON) (ovsPortParam : OVSPortParam) (data : String) :
    Option String × OVSPortParam :=
  match json.Unmarshal data with
  | .error err => (some err, ovsPortParam)
  | .ok internal =>
    let ovsPortParam1 := { ovsPortParam with
      PodName := internal.PodName
      PodNameSpace := internal.PodNameSpace
      ContainerID := internal.ContainerID
      HostIface := some internal.HostIface
      ContainerIface := some internal.ContainerIface }
    match unmarshalIps json internal.Ips with
    | .error err => (some ("failed to parse IPConfig: " ++ err), ovsPortParam1)
    | .ok _ipConfigs => (none, ovsPortParam1)

/-- Go `hcsshim.HNSEndpoint`, the fields `LoadOVSPortParam` reads. -/
structure HNSEndpoint where
  AdditionalParams : List (String × String)
  MacAddress : String
deriving DecidableEq, Repr

/-- Go `LoadOVSPortParam`: the returned pointer (`none` for nil) and error. -/
def LoadOVSPortParam (json : JSON) (ep : HNSEndpoint) : Option OVSPortParam × Option String :=
  match ep.AdditionalParams.lookup "ovsPortParam" with
  | none => (none, none)
  | some paramStr =>
    match json.Unmarshal paramStr with
    | .error err => (none, some err)
    | .ok internal =>
      let ovsPortParam : OVSPortParam :=
        { PodName := internal.PodName
          PodNameSpace := internal.PodNameSpace
          ContainerID := internal.ContainerID
          HostIface := some { internal.HostIface with Mac := ep.MacAddress }
          ContainerIface := some { internal.ContainerIface with Mac := ep.MacAddress }
          Ips := [] }
      match unmarshalIps json internal.Ips with
      | .error err => (none, some ("failed to parse IPConfig: " ++ err))
      | .ok _ipConfigs => (some ovsPortParam, none)

/-- A port parameter with one IP configuration. -/
def param1 : OVSPortParam :=
  { PodName := "win-webserver"
    PodNameSpace := "default"
    ContainerID := "067e66fa"
    HostIface := some ⟨"win-webs-067e66", "", ""⟩
    ContainerIface := some ⟨"eth0", "", "067e66fa"⟩
    Ips := [⟨"4", some 1, ⟨[10, 10, 1, 5], mask24⟩, [10, 10, 1, 1]⟩] }

/-- The internal form that `MarshalJson` builds from `param1` under `json1`. -/
def internal1 : ovsPortParamInternal :=
  { PodName := "win-webserver"
    PodNameSpace := "default"
    ContainerID := "067e66fa"
    HostIface := ⟨"win-webs-067e66", "", ""⟩
    ContainerIface := ⟨"eth0", "", "067e66fa"⟩
    Ips := ["ip0"] }

/-- An instance of the library functions that encodes `internal1` and the IP
configuration of `param1`, and refuses everything else. -/
def json1 : JSON :=
  { Marshal := fun x => if x = internal1 then .ok "param1" else .error "unsupported value"
    Unmarshal := fun data => if data = "param1" then .ok internal1 else .error "invalid JSON"
    IPConfigMarshalJSON := fun ip =>
      if ip = ⟨"4", some 1, ⟨[10, 10, 1, 5], mask24⟩, [10, 10, 1, 1]⟩ then .ok "ip0"
      else .error "unsupported value"
    IPConfigUnmarshalJSON := fun data =>
      if data = "ip0" then .ok ⟨"4", some 1, ⟨[10, 10, 1, 5], mask24⟩, [10, 10, 1, 1]⟩
      else .error "invalid JSON" }

/-! ## The agent initializer (`pkg/agent/agent_windows.go`) -/

/-- Go `net.HardwareAddr`. -/
abbrev HardwareAddr := List Nat

/-- Value of a hexadecimal digit, as Go `xtoi` reads it. -/
def xtoiDigit (c : Char) : Option Nat :=
  if 48 ≤ c.toNat ∧ c.toNat ≤ 57 then some (c.toNat - 48)
  else if 97 ≤ c.toNat ∧ c.toNat ≤ 102 then some (c.toNat - 97 + 10)
  else if 65 ≤ c.toNat ∧ c.toNat ≤ 70 then some (c.toNat - 65 + 10)
  else none

/-- Go `xtoi2`: the byte that the first two characters spell in hexadecimal;
when there is a third character it has to be `e`. -/
def xtoi2 (s : List Char) (e : Char) : Option Nat :=
  if s.length > 2 ∧ s.getD 2 e ≠ e then none
  else
    match s with
    | a :: b :: _ =>
      match xtoiDigit a, xtoiDigit b with
      | some x, some y => some (x * 16 + y)
      | _, _ => none
    | _ => none

/-- The loop of `ParseMAC` over groups of two digits and a separator. -/
def macLoop (e : Char) : Nat → List Char → Option HardwareAddr
  | 0, _ => some []
  | n + 1, s =>
    match xtoi2 s e with
    | none => none
    | some b => (macLoop e n (s.drop 3)).map (b :: ·)

/-- The loop of `ParseMAC` over groups of four digits and a dot. -/
def macLoopDot (e : Char) : Nat → List Char → Option HardwareAddr
  | 0, _ => some []
  | n + 1, s =>
    match xtoi2 (s.take 2) (Char.ofNat 0), xtoi2 (s.drop 2) e with
    | some a, some b => (macLoopDot e n (s.drop 5)).map (a :: b :: ·)
    | _, _ => none

/-- Go `net.ParseMAC`, `none` for an error: six, eight or twenty bytes,
written as pairs of digits separated by colons or by hyphens, or as groups of
four digits separated by dots. -/
def ParseMAC (str : String) : Option HardwareAddr :=
  let s := str.data
  if s.length < 14 then none
  else if s.getD 2 ' ' = ':' ∨ s.getD 2 ' ' = '-' then
    if (s.length + 1) % 3 ≠ 0 then none
    else
      let n := (s.length + 1) / 3
      if n ≠ 6 ∧ n ≠ 8 ∧ n ≠ 20 then none
      else macLoop (s.getD 2 ' ') n s
  else if s.getD 4 ' ' = '.' then
    if (s.length + 1) % 5 ≠ 0 then none
    else
      let n := 2 * (s.length + 1) / 5
      if n ≠ 6 ∧ n ≠ 8 ∧ n ≠ 20 then none
      else macLoopDot (s.getD 4 ' ') (n / 2) s
  else none

/-- Go `strings.Replace(s, old, "", -1)` for `old` of one character: the
string without its occurrences of `old`. -/
def strings.Replace (s : String) (old : Char) : String :=
  String.mk (s.data.filter fun c => decide (c ≠ old))

/-- Go `hcsshim.HNSNetwork`, the fields the initializer reads. -/
structure HNSNetwork where
  NetworkAdapterName : String
  SourceMac : String
  ManagementIP : String
deriving DecidableEq, Repr

/-- Go `interfacestore.OVSPortConfig`. -/
structure OVSPortConfig where
  PortUUID : String
  OFPort : Int
deriving DecidableEq, Repr

/-- Go `interfacestore.InterfaceConfig`, the fields the initializer sets. -/
structure InterfaceConfig where
  InterfaceName : String
  OVSPortConfig : Option Antrea.OVSPortConfig
deriving DecidableEq, Repr

/-- A call the initializer makes on the host network service, the switch
client, the interface store or the host adapters. -/
inductive AgentCall where
  | GetHNSNetworkByName (name : String)
  | SetDatapathID (datapathID : String)
  | GetOFPort (ifName : String)
  | CreateUplinkPort (name ifDev : String) (ofPortRequest : Int)
  | AddInterface (interfaceConfig : InterfaceConfig)
  | GetBridgeName
  | EnableHostInterface (ifaceName : String)
  | ConfigureMacAddress (ifaceName : String) (mac : HardwareAddr)
  | GetAdapterIPv4Addr (adapterName : String)
  | RemoveIPv4Addrs (ifaceName : String)
  | ConfigureInterfaceAddress (ifaceName : String) (ipConfig : IPNet)
deriving DecidableEq, Repr

/-- Go `Initializer` with the state of what `prepareOVSBridge` acts on.
`LocalHNSNetwork` and `UplinkOFPort` are the constants `util.LocalHNSNetwork`
and `config.UplinkOFPort`, and `ParseCIDR` is `net.ParseCIDR`, all three taken
as parameters. The other fields are the networks of the host network service,
the switch (bridge name, datapath identifier, ports by name, the identifier it
gives to the next port), the interface store, the bridge adapter (enabled,
hardware address, IPv4 address), the outcomes of the fallible calls to come
and the calls made so far. -/
structure Initializer where
  LocalHNSNetwork : String
  UplinkOFPort : Int
  ParseCIDR : String → Except String (IP × IPNet)
  hnsNetworks : List (String × HNSNetwork)
  bridgeName : String
  datapathID : Option String
  ovsPorts : List (String × OVSPortConfig)
  newPortUUID : String
  ifaceStore : List InterfaceConfig
  bridgeEnabled : Bool
  bridgeMac : Option HardwareAddr
  bridgeIPv4 : Option IPNet
  outcomes : List (Option String)
  calls : List AgentCall

/-- The initializer after a call has been logged and its outcome used, with
that outcome. -/
def Initializer.call (i : Initializer) (c : AgentCall) : Option String × Initializer :=
  (i.outcomes.headD none, { i with outcomes := i.outcomes.tail, calls := i.calls ++ [c] })

/-- Modelled from the spec: `hcsshim.GetHNSNetworkByName` locates the local
virtual network of the platform by name. -/
def GetHNSNetworkByName (i : Initializer) (name : String) :
    Except String HNSNetwork × Initializer :=
  match i.call (.GetHNSNetworkByName name) with
  | (some err, i1) => (.error err, i1)
  | (none, i1) =>
    match i.hnsNetworks.lookup name with
    | some hnsNetwork => (.ok hnsNetwork, i1)
    | none => (.error ("Network " ++ name ++ " not found"), i1)

/-- Modelled from the spec: the switch control client call `SetDatapathID`. -/
def SetDatapathID (i : Initializer) (datapathID : String) : Option String × Initializer :=
  match i.call (.SetDatapathID datapathID) with
  | (some err, i1) => (some err, i1)
  | (none, i1) => (none, { i1 with datapathID := some datapathID })

/-- Modelled from the spec: the switch control client call that gets a port
by name; it fails when the switch has no port of that name. -/
def GetOFPort (i : Initializer) (ifName : String) : Except String Int × Initializer :=
  match i.call (.GetOFPort ifName) with
  | (some err, i1) => (.error err, i1)
  | (none, i1) =>
    match i.ovsPorts.lookup ifName with
    | some port => (.ok port.OFPort, i1)
    | none => (.error ("port " ++ ifName ++ " not found"), i1)

/-- Modelled from the spec: the switch control client call that creates the
managed port of the uplink with the requested port number and returns its
identifier. -/
def CreateUplinkPort (i : Initializer) (name ifDev : String) (ofPortRequest : Int) :
    Except String String × Initializer :=
  match i.call (.CreateUplinkPort name ifDev ofPortRequest) with
  | (some err, i1) => (.error err, i1)
  | (none, i1) =>
    (.ok i.newPortUUID,
      { i1 with ovsPorts := i.ovsPorts ++ [(name, ⟨i.newPortUUID, ofPortRequest⟩)] })

/-- Modelled from the spec: the interface store call that records an
interface. -/
def AddInterface (i : Initializer) (interfaceConfig : InterfaceConfig) : Initializer :=
  { i with
    ifaceStore := i.ifaceStore ++ [interfaceConfig]
    calls := i.calls ++ [.AddInterface interfaceConfig] }

/-- Modelled from the spec: the switch control client call `GetBridgeName`. -/
def GetBridgeName (i : Initializer) : String × Initializer :=
  (i.bridgeName, { i with calls := i.calls ++ [.GetBridgeName] })

/-- Modelled from the spec: `util.EnableHostInterface` enables the bridge
interface. -/
def EnableHostInterface (i : Initializer) (ifaceName : String) : Option String × Initializer :=
  match i.call (.EnableHostInterface ifaceName) with
  | (some err, i1) => (some err, i1)
  | (none, i1) => (none, { i1 with bridgeEnabled := true })

/-- Modelled from the spec: `util.ConfigureMacAddress` sets the hardware
address of the bridge interface. -/
def ConfigureMacAddress (i : Initializer) (ifaceName : String) (mac : HardwareAddr) :
    Option String × Initializer :=
  match i.call (.ConfigureMacAddress ifaceName mac) with
  | (some err, i1) => (some err, i1)
  | (none, i1) => (none, { i1 with bridgeMac := some mac })

/-- Modelled from the spec: `util.GetAdapterIPv4Addr` reads the current IPv4
address of the bridge interface; it fails when there is none. -/
def GetAdapterIPv4Addr (i : Initializer) (adapterName : String) :
    Except String IPNet × Initializer :=
  match i.call (.GetAdapterIPv4Addr adapterName) with
  | (some err, i1) => (.error err, i1)
  | (none, i1) =>
    match i.bridgeIPv4 with
    | some addr => (.ok addr, i1)
    | none => (.error ("no IPv4 address on " ++ adapterName), i1)

/-- Modelled from the spec: `util.RemoveIPv4Addrs` clears the IPv4 addresses
of the bridge interface. -/
def RemoveIPv4Addrs (i : Initializer) (ifaceName : String) : Option String × Initializer :=
  match i.call (.RemoveIPv4Addrs ifaceName) with
  | (some err, i1) => (some err, i1)
  | (none, i1) => (none, { i1 with bridgeIPv4 := none })

/-- Modelled from the spec: `util.ConfigureInterfaceAddress` assigns the
address to the bridge interface. -/
def ConfigureInterfaceAddress (i : Initializer) (ifaceName : String) (ipConfig : IPNet) :
    Option String × Initializer :=
  match i.call (.ConfigureInterfaceAddress ifaceName ipConfig) with
  | (some err, i1) => (some err, i1)
  | (none, i1) => (none, { i1 with bridgeIPv4 := some ipConfig })

/-- The steps of `prepareOVSBridge` after the uplink port has been created and
recorded: moving the IP and MAC of the uplink to the bridge. -/
def moveAddresses (i : Initializer) (hnsNetwork : HNSNetwork) : Option String × Initializer :=
  match i.ParseCIDR hnsNetwork.ManagementIP with
  | .error err => (some err, i)
  | .ok (ipAddr, ipNet) =>
    let ifIpAddr : IPNet := ⟨ipAddr, ipNet.Mask⟩
    match GetBridgeName i with
    | (brName, i1) =>
      match EnableHostInterface i1 brName with
      | (some err, i2) => (some err, i2)
      | (none, i2) =>
        match ParseMAC hnsNetwork.SourceMac with
        | none => (some ("address " ++ hnsNetwork.SourceMac ++ ": invalid MAC address"), i2)
        | some macAddr =>
          match ConfigureMacAddress i2 brName macAddr with
          | (some err, i3) => (some err, i3)
          | (none, i3) =>
            match GetAdapterIPv4Addr i3 brName with
            | (.ok existingIpAddr, i4) =>
              if existingIpAddr.String = ifIpAddr.String then (none, i4)
              else
                match RemoveIPv4Addrs i4 brName with
                | (some err, i5) => (some err, i5)
                | (none, i5) => ConfigureInterfaceAddress i5 brName ifIpAddr
            | (.error _, i4) =>
              match RemoveIPv4Addrs i4 brName with
              | (some err, i5) => (some err, i5)
              | (none, i5) => ConfigureInterfaceAddress i5 brName ifIpAddr

/-- Go `Initializer.prepareOVSBridge`. -/
def Initializer.prepareOVSBridge (i : Initializer) : Option String × Initializer :=
  match GetHNSNetworkByName i i.LocalHNSNetwork with
  | (.error err, i1) => (some err, i1)
  | (.ok hnsNetwork, i1) =>
    let uplink := hnsNetwork.NetworkAdapterName
    let datapathID := strings.Replace hnsNetwork.SourceMac ':'
    let datapathID := "0000" ++ datapathID
    match SetDatapathID i1 datapathID with
    | (some err, i2) => (some err, i2)
    | (none, i2) =>
      match GetOFPort i2 uplink with
      | (.ok _, i3) => (none, i3)
      | (.error _, i3) =>
        match CreateUplinkPort i3 uplink uplink i.UplinkOFPort with
        | (.error err, i4) => (some err, i4)
        | (.ok uplinkPortUUId, i4) =>
          let uplinkInterface : InterfaceConfig :=
            { InterfaceName := uplink, OVSPortConfig := some ⟨uplinkPortUUId, i.UplinkOFPort⟩ }
          moveAddresses (AddInterface i4 uplinkInterface) hnsNetwork

/-- An initializer on a host whose local network has the given hardware
address and whose switch has the given ports; every call succeeds. -/
def initializer0 (sourceMac : String) (ovsPorts : List (String × OVSPortConfig)) :
    Initializer :=
  { LocalHNSNetwork := "antrea-hnsnetwork"
    UplinkOFPort := 4
    ParseCIDR := fun s =>
      if s = "10.0.0.5/24" then .ok ([10, 0, 0, 5], ⟨[10, 0, 0, 0], mask24⟩)
      else .error ("invalid CIDR address: " ++ s)
    hnsNetworks := [("antrea-hnsnetwork", ⟨"Ethernet0", sourceMac, "10.0.0.5/24"⟩)]
    bridgeName := "br-int"
    datapathID := none
    ovsPorts := ovsPorts
    newPortUUID := "uuid-1"
    ifaceStore := []
    bridgeEnabled := false
    bridgeMac := none
    bridgeIPv4 := none
    outcomes := []
    calls := [] }

/-! ## Lemmas on the maps and on `net` -/

theorem IP_Equal_refl (ip : IP) : IP.Equal ip ip = true := by
  simp [IP.Equal]

theorem Load_cons (k key : String) (v : Route) (m : RouteMap) :
    RouteMap.Load ((k, v) :: m) key = if k = key then some v else RouteMap.Load m key := rfl

theorem Delete_cons (k key : String) (v : Route) (m : RouteMap) :
    RouteMap.Delete ((k, v) :: m) key
      = if k = key then RouteMap.Delete m key else (k, v) :: RouteMap.Delete m key := by
  by_cases h : k = key <;> simp [RouteMap.Delete, List.filter_cons, h]

theorem Load_Delete_same (m : RouteMap) (key : String) :
    (m.Delete key).Load key = none := by
  induction m with
  | nil => rfl
  | cons e m ih =>
    obtain ⟨k, v⟩ := e
    by_cases h : k = key
    · rw [Delete_cons, if_pos h]; exact ih
    · rw [Delete_cons, if_neg h, Load_cons, if_neg h]; exact ih

theorem Load_Delete_other (m : RouteMap) (key other : String) (h : other ≠ key) :
    (m.Delete key).Load other = m.Load other := by
  induction m with
  | nil => rfl
  | cons e m ih =>
    obtain ⟨k, v⟩ := e
    by_cases hk : k = key
    · have hko : ¬ k = other := fun h1 => h (h1 ▸ hk)
      rw [Delete_cons, if_pos hk, Load_cons, if_neg hko]; exact ih
    · rw [Delete_cons, if_neg hk, Load_cons, Load_cons, ih]

theorem Load_Store_same (m : RouteMap) (key : String) (value : Route) :
    (m.Store key value).Load key = some value := by
  simp [RouteMap.Store, RouteMap.Load]

theorem Load_Store_other (m : RouteMap) (key other : String) (value : Route)
    (h : other ≠ key) : (m.Store key value).Load other = m.Load other := by
  have hk : ¬ key = other := fun h1 => h h1.symm
  simp [RouteMap.Store, RouteMap.Load, hk, Load_Delete_other m key other h]

/-! ## AddRoutes -/

/-- What `AddRoutes` does when the cache has no entry for the subnet and the
platform add succeeds. -/
theorem AddRoutes_fresh (c : Client) (podCIDR : IPNet) (peerNodeIP peerGwIP : IP)
    (hcache : c.hostRoutes.Load podCIDR.String = none) (hadd : c.nr.nextErr = none) :
    c.AddRoutes podCIDR peerNodeIP peerGwIP
      = (none, { c with
          nr := { (c.nr.record
                    (.NewNetRoute c.nodeConfig.GatewayConfig.LinkIndex podCIDR peerGwIP)) with
                  routes := c.nr.routes
                    ++ [⟨c.nodeConfig.GatewayConfig.LinkIndex, podCIDR, peerGwIP⟩] }
          hostRoutes := c.hostRoutes.Store podCIDR.String
            ⟨c.nodeConfig.GatewayConfig.LinkIndex, podCIDR, peerGwIP⟩ }) := by
  simp [Client.AddRoutes, hcache, NewNetRoute, hadd]

/-- What `AddRoutes` does when the cache holds a record for the subnet whose
gateway equals the requested one: nothing. -/
theorem AddRoutes_cached_same (c : Client) (podCIDR : IPNet) (peerNodeIP peerGwIP : IP)
    (rt : Route) (hcache : c.hostRoutes.Load podCIDR.String = some rt)
    (hgw : IP.Equal rt.GatewayAddress peerGwIP = true) :
    c.AddRoutes podCIDR peerNodeIP peerGwIP = (none, c) := by
  simp [Client.AddRoutes, hcache, hgw]

/-- C1: from a cache with no entry for the subnet and a platform whose add
succeeds, the first `AddRoutes` returns nil, issues the single call
`NewNetRoute` on the configured gateway link index with the subnet and the
gateway, which adds the route to the routing table, and stores the cache
entry; a second `AddRoutes` with the same
arguments returns nil and leaves the whole client (cache, routing table and
call log) as the first call left it, so the two calls issue one platform add
in total. -/
theorem AddRoutes_idempotent (c : Client) (podCIDR : IPNet) (peerNodeIP peerGwIP : IP)
    (hcache : c.hostRoutes.Load podCIDR.String = none) (hadd : c.nr.nextErr = none) :
    (c.AddRoutes podCIDR peerNodeIP peerGwIP).1 = none
    ∧ (c.AddRoutes podCIDR peerNodeIP peerGwIP).2.nr.calls
        = c.nr.calls
          ++ [Call.NewNetRoute c.nodeConfig.GatewayConfig.LinkIndex podCIDR peerGwIP]
    ∧ (c.AddRoutes podCIDR peerNodeIP peerGwIP).2.nr.routes
        = c.nr.routes ++ [⟨c.nodeConfig.GatewayConfig.LinkIndex, podCIDR, peerGwIP⟩]
    ∧ (c.AddRoutes podCIDR peerNodeIP peerGwIP).2.hostRoutes.Load podCIDR.String
        = some ⟨c.nodeConfig.GatewayConfig.LinkIndex, podCIDR, peerGwIP⟩
    ∧ (c.AddRoutes podCIDR peerNodeIP peerGwIP).2.AddRoutes podCIDR peerNodeIP peerGwIP
        = (none, (c.AddRoutes podCIDR peerNodeIP peerGwIP).2)
    ∧ ((c.AddRoutes podCIDR peerNodeIP peerGwIP).2.AddRoutes
          podCIDR peerNodeIP peerGwIP).2.nr.calls
        = c.nr.calls
          ++ [Call.NewNetRoute c.nodeConfig.GatewayConfig.LinkIndex podCIDR peerGwIP] := by
  have h1 := AddRoutes_fresh c podCIDR peerNodeIP peerGwIP hcache hadd
  have hload : (c.AddRoutes podCIDR peerNodeIP peerGwIP).2.hostRoutes.Load podCIDR.String
      = some ⟨c.nodeConfig.GatewayConfig.LinkIndex, podCIDR, peerGwIP⟩ := by
    rw [h1]; exact Load_Store_same _ _ _
  have h2 := AddRoutes_cached_same (c.AddRoutes podCIDR peerNodeIP peerGwIP).2 podCIDR
    peerNodeIP peerGwIP _ hload (IP_Equal_refl peerGwIP)
  refine ⟨by rw [h1], by rw [h1]; rfl, by rw [h1], hload, h2, ?_⟩
  rw [h2, h1]; rfl

theorem AddRoutes_idempotent_witness :
    (client0 [] []).hostRoutes.Load destCIDR1.String = none
    ∧ ((client0 [] []).AddRoutes destCIDR1 peerNodeIP gwIP1).2.AddRoutes
          destCIDR1 peerNodeIP gwIP1
        = (none, ((client0 [] []).AddRoutes destCIDR1 peerNodeIP gwIP1).2) :=
  ⟨rfl, (AddRoutes_idempotent (client0 [] []) destCIDR1 peerNodeIP gwIP1 rfl rfl).2.2.2.2.1⟩

/-- A platform removal that succeeds. -/
theorem RemoveNetRoute_ok (p : Platform) (linkIndex : Int) (dst : IPNet) (gw : IP)
    (h : p.nextErr = none) :
    RemoveNetRoute p linkIndex dst gw
      = (none,
          { routes := p.routes.filter fun r => !r.matches linkIndex dst gw
            outcomes := p.outcomes.tail
            calls := p.calls ++ [Call.RemoveNetRoute linkIndex dst gw] }) := by
  simp only [RemoveNetRoute, h, Platform.record]

/-- A platform removal that fails. -/
theorem RemoveNetRoute_fail (p : Platform) (linkIndex : Int) (dst : IPNet) (gw : IP)
    (e : String) (h : p.nextErr = some e) :
    RemoveNetRoute p linkIndex dst gw
      = (some e,
          { routes := p.routes
            outcomes := p.outcomes.tail
            calls := p.calls ++ [Call.RemoveNetRoute linkIndex dst gw] }) := by
  simp only [RemoveNetRoute, h, Platform.record]

/-- A platform add that succeeds. -/
theorem NewNetRoute_ok (p : Platform) (linkIndex : Int) (dst : IPNet) (gw : IP)
    (h : p.nextErr = none) :
    NewNetRoute p linkIndex dst gw
      = (none,
          { routes := p.routes ++ [⟨linkIndex, dst, gw⟩]
            outcomes := p.outcomes.tail
            calls := p.calls ++ [Call.NewNetRoute linkIndex dst gw] }) := by
  simp only [NewNetRoute, h, Platform.record]

/-- The first of `n + 1` successful outcomes is a success, and `n` successful
outcomes follow it. -/
theorem outcomes_take_succ (l : List (Option String)) (n : Nat)
    (h : ∀ o ∈ l.take (n + 1), o = none) :
    l.headD none = none ∧ ∀ o ∈ l.tail.take n, o = none := by
  cases l with
  | nil => simp
  | cons o rest =>
    simp only [List.take_succ_cons, List.mem_cons, forall_eq_or_imp] at h
    exact ⟨h.1, h.2⟩

/-- What `AddRoutes` does when the cache holds a record for the subnet with
another gateway and both platform calls succeed: the recorded route is
removed, then the new route is added and stored. -/
theorem AddRoutes_cached_other (c : Client) (podCIDR : IPNet) (peerNodeIP peerGwIP : IP)
    (rt : Route) (hcache : c.hostRoutes.Load podCIDR.String = some rt)
    (hgw : IP.Equal rt.GatewayAddress peerGwIP = false)
    (hremove : c.nr.nextErr = none)
    (hadd : c.nr.outcomes.tail.headD none = none) :
    c.AddRoutes podCIDR peerNodeIP peerGwIP
      = (none, { c with
          nr :=
            { routes :=
                (c.nr.routes.filter fun r =>
                  !r.matches rt.LinkIndex rt.DestinationSubnet rt.GatewayAddress)
                ++ [⟨c.nodeConfig.GatewayConfig.LinkIndex, podCIDR, peerGwIP⟩]
              outcomes := c.nr.outcomes.tail.tail
              calls := c.nr.calls
                ++ [Call.RemoveNetRoute rt.LinkIndex rt.DestinationSubnet rt.GatewayAddress,
                    Call.NewNetRoute c.nodeConfig.GatewayConfig.LinkIndex podCIDR peerGwIP] }
          hostRoutes := c.hostRoutes.Store podCIDR.String
            ⟨c.nodeConfig.GatewayConfig.LinkIndex, podCIDR, peerGwIP⟩ }) := by
  have h1 := RemoveNetRoute_ok c.nr rt.LinkIndex rt.DestinationSubnet rt.GatewayAddress hremove
  have h2 := NewNetRoute_ok
    { routes := c.nr.routes.filter fun r =>
        !r.matches rt.LinkIndex rt.DestinationSubnet rt.GatewayAddress
      outcomes := c.nr.outcomes.tail
      calls := c.nr.calls
        ++ [Call.RemoveNetRoute rt.LinkIndex rt.DestinationSubnet rt.GatewayAddress] }
    c.nodeConfig.GatewayConfig.LinkIndex podCIDR peerGwIP hadd
  simp only [Client.AddRoutes, hcache, hgw, h1, h2]
  simp

/-- C2: from a cache with no entry for the subnet and a routing table with no
route for the subnet on the gateway link, `AddRoutes` with gateway `gwA`
followed by `AddRoutes` with a different gateway `gwB` (`IP.Equal` says they
differ), the three platform calls succeeding, both return nil; the routing
table ends as the initial table followed by the one route for the subnet, on
the gateway link with gateway `gwB`; the cache maps the subnet to that route;
and the second call has issued the removal of the `gwA` route and then the add
of the `gwB` route. -/
theorem AddRoutes_gateway_change (c : Client) (podCIDR : IPNet) (peerNodeIP gwA gwB : IP)
    (hne : IP.Equal gwA gwB = false)
    (hcache : c.hostRoutes.Load podCIDR.String = none)
    (hroutes : ∀ r ∈ c.nr.routes, r.LinkIndex = c.nodeConfig.GatewayConfig.LinkIndex →
      r.DestinationSubnet.String ≠ podCIDR.String)
    (hok : ∀ o ∈ c.nr.outcomes.take 3, o = none) :
    (c.AddRoutes podCIDR peerNodeIP gwA).1 = none
    ∧ ((c.AddRoutes podCIDR peerNodeIP gwA).2.AddRoutes podCIDR peerNodeIP gwB).1 = none
    ∧ ((c.AddRoutes podCIDR peerNodeIP gwA).2.AddRoutes podCIDR peerNodeIP gwB).2.nr.routes
        = c.nr.routes ++ [⟨c.nodeConfig.GatewayConfig.LinkIndex, podCIDR, gwB⟩]
    ∧ (((c.AddRoutes podCIDR peerNodeIP gwA).2.AddRoutes
          podCIDR peerNodeIP gwB).2.nr.routes.filter fun r =>
            decide (r.LinkIndex = c.nodeConfig.GatewayConfig.LinkIndex
              ∧ r.DestinationSubnet.String = podCIDR.String))
        = [⟨c.nodeConfig.GatewayConfig.LinkIndex, podCIDR, gwB⟩]
    ∧ ((c.AddRoutes podCIDR peerNodeIP gwA).2.AddRoutes
          podCIDR peerNodeIP gwB).2.hostRoutes.Load podCIDR.String
        = some ⟨c.nodeConfig.GatewayConfig.LinkIndex, podCIDR, gwB⟩
    ∧ ((c.AddRoutes podCIDR peerNodeIP gwA).2.AddRoutes podCIDR peerNodeIP gwB).2.nr.calls
        = (c.AddRoutes podCIDR peerNodeIP gwA).2.nr.calls
          ++ [Call.RemoveNetRoute c.nodeConfig.GatewayConfig.LinkIndex podCIDR gwA,
              Call.NewNetRoute c.nodeConfig.GatewayConfig.LinkIndex podCIDR gwB] := by
  obtain ⟨h1, hok1⟩ := outcomes_take_succ _ 2 hok
  obtain ⟨h2, hok2⟩ := outcomes_take_succ _ 1 hok1
  obtain ⟨h3, -⟩ := outcomes_take_succ _ 0 hok2
  obtain ⟨c1, hc1⟩ : ∃ c1 : Client, c1 = (c.AddRoutes podCIDR peerNodeIP gwA).2 := ⟨_, rfl⟩
  have hA := AddRoutes_fresh c podCIDR peerNodeIP gwA hcache h1
  rw [hA] at hc1
  have hA1 : c.AddRoutes podCIDR peerNodeIP gwA = (none, c1) := by rw [hA, hc1]
  have hcfg : c1.nodeConfig = c.nodeConfig := by rw [hc1]
  have hr1 : c1.nr.routes
      = c.nr.routes ++ [⟨c.nodeConfig.GatewayConfig.LinkIndex, podCIDR, gwA⟩] := by rw [hc1]
  have ho1 : c1.nr.outcomes = c.nr.outcomes.tail := by rw [hc1]; rfl
  have hload1 : c1.hostRoutes.Load podCIDR.String
      = some ⟨c.nodeConfig.GatewayConfig.LinkIndex, podCIDR, gwA⟩ := by
    rw [hc1]; exact Load_Store_same _ _ _
  have hB := AddRoutes_cached_other c1 podCIDR peerNodeIP gwB
    ⟨c.nodeConfig.GatewayConfig.LinkIndex, podCIDR, gwA⟩ hload1 hne
    (by unfold Platform.nextErr; rw [ho1]; exact h2) (by rw [ho1]; exact h3)
  have hkeep : (c.nr.routes.filter fun r =>
      !r.matches c.nodeConfig.GatewayConfig.LinkIndex podCIDR gwA) = c.nr.routes := by
    rw [List.filter_eq_self]
    intro r hr
    by_cases hl : r.LinkIndex = c.nodeConfig.GatewayConfig.LinkIndex
    · have hne : r.DestinationSubnet ≠ podCIDR := fun h => hroutes r hr hl (by rw [h])
      simp [Route.matches, hne]
    · simp [Route.matches, hl]
  have hnone : (c.nr.routes.filter fun r =>
      decide (r.LinkIndex = c.nodeConfig.GatewayConfig.LinkIndex
        ∧ r.DestinationSubnet.String = podCIDR.String)) = [] := by
    rw [List.filter_eq_nil_iff]
    intro r hr
    simpa using hroutes r hr
  have hdrop : ([(⟨c.nodeConfig.GatewayConfig.LinkIndex, podCIDR, gwA⟩ : Route)].filter
      fun r => !r.matches c.nodeConfig.GatewayConfig.LinkIndex podCIDR gwA) = [] := by
    simp [Route.matches, IP_Equal_refl]
  rw [hA1]
  dsimp only
  rw [hB]
  dsimp only
  rw [hr1, hcfg, List.filter_append, hkeep, hdrop, List.append_nil]
  refine ⟨rfl, rfl, rfl, ?_, Load_Store_same _ _ _, rfl⟩
  rw [List.filter_append, hnone]
  simp

theorem AddRoutes_gateway_change_witness :
    IP.Equal gwIP1 gwIP2 = false
    ∧ (((client0 [] []).AddRoutes destCIDR1 peerNodeIP gwIP1).2.AddRoutes
          destCIDR1 peerNodeIP gwIP2).2.nr.routes
        = [] ++ [⟨1, destCIDR1, gwIP2⟩] :=
  ⟨by decide,
    (AddRoutes_gateway_change (client0 [] []) destCIDR1 peerNodeIP gwIP1 gwIP2 (by decide) rfl
      (by simp [client0]) (by simp [client0])).2.2.1⟩

/-! ## DeleteRoutes -/

/-- C8: `DeleteRoutes` of a subnet whose CIDR string is not a key of the cache
returns nil and leaves the client as it was: no call is added to the call log,
and the routing table and the cache are unchanged. -/
theorem DeleteRoutes_absent (c : Client) (podCIDR : IPNet)
    (hcache : c.hostRoutes.Load podCIDR.String = none) :
    c.DeleteRoutes podCIDR = (none, c) := by
  simp [Client.DeleteRoutes, hcache]

theorem DeleteRoutes_absent_witness :
    (client0 [⟨1, destCIDR1, gwIP1⟩] [some "unreachable"]).DeleteRoutes destCIDR1
      = (none, client0 [⟨1, destCIDR1, gwIP1⟩] [some "unreachable"]) :=
  DeleteRoutes_absent (client0 [⟨1, destCIDR1, gwIP1⟩] [some "unreachable"]) destCIDR1 rfl

/-- C9: when the cache holds record `rt` for the subnet, `DeleteRoutes` issues
exactly one platform call, the removal with the link index, destination and
gateway of `rt`; it returns the outcome of that removal; if the removal
succeeds the entry of the subnet is evicted, if it fails the cache is
unchanged (the entry is still there); the entries of all other keys are
unchanged in both cases. -/
theorem DeleteRoutes_cached (c : Client) (podCIDR : IPNet) (rt : Route)
    (hcache : c.hostRoutes.Load podCIDR.String = some rt) :
    (c.DeleteRoutes podCIDR).2.nr.calls
        = c.nr.calls
          ++ [Call.RemoveNetRoute rt.LinkIndex rt.DestinationSubnet rt.GatewayAddress]
    ∧ (c.DeleteRoutes podCIDR).1 = c.nr.nextErr
    ∧ (c.nr.nextErr = none →
        (c.DeleteRoutes podCIDR).2.hostRoutes.Load podCIDR.String = none)
    ∧ (c.nr.nextErr ≠ none →
        (c.DeleteRoutes podCIDR).2.hostRoutes = c.hostRoutes
        ∧ (c.DeleteRoutes podCIDR).2.hostRoutes.Load podCIDR.String = some rt
        ∧ (c.DeleteRoutes podCIDR).2.nr.routes = c.nr.routes)
    ∧ (((c.DeleteRoutes podCIDR).1 = none
          ↔ (c.DeleteRoutes podCIDR).2.hostRoutes.Load podCIDR.String = none))
    ∧ ∀ other, other ≠ podCIDR.String →
        (c.DeleteRoutes podCIDR).2.hostRoutes.Load other = c.hostRoutes.Load other := by
  cases hnext : c.nr.nextErr with
  | none =>
    have h : c.DeleteRoutes podCIDR
        = (none, { c with
            nr := { (c.nr.record
                      (.RemoveNetRoute rt.LinkIndex rt.DestinationSubnet rt.GatewayAddress)) with
                    routes := c.nr.routes.filter fun r =>
                      !r.matches rt.LinkIndex rt.DestinationSubnet rt.GatewayAddress }
            hostRoutes := c.hostRoutes.Delete podCIDR.String }) := by
      simp [Client.DeleteRoutes, hcache, RemoveNetRoute, hnext]
    rw [h]
    refine ⟨rfl, rfl, fun _ => Load_Delete_same _ _, fun hne => absurd rfl hne, ?_, ?_⟩
    · simp [Load_Delete_same]
    · intro other hother
      exact Load_Delete_other _ _ _ hother
  | some e =>
    have h : c.DeleteRoutes podCIDR
        = (some e, { c with
            nr := c.nr.record
              (.RemoveNetRoute rt.LinkIndex rt.DestinationSubnet rt.GatewayAddress) }) := by
      simp [Client.DeleteRoutes, hcache, RemoveNetRoute, hnext]
    rw [h]
    refine ⟨rfl, rfl, fun hne => by simp at hne, fun _ => ⟨rfl, hcache, rfl⟩, ?_, ?_⟩
    · simp [hcache]
    · intro other _
      rfl

theorem DeleteRoutes_cached_witness :
    ((client0 [] []).AddRoutes destCIDR1 peerNodeIP gwIP1).2.hostRoutes.Load destCIDR1.String
        = some ⟨1, destCIDR1, gwIP1⟩
    ∧ (((client0 [] []).AddRoutes destCIDR1 peerNodeIP gwIP1).2.DeleteRoutes destCIDR1).2.nr.calls
        = ((client0 [] []).AddRoutes destCIDR1 peerNodeIP gwIP1).2.nr.calls
          ++ [Call.RemoveNetRoute 1 destCIDR1 gwIP1] :=
  ⟨by decide,
    (DeleteRoutes_cached ((client0 [] []).AddRoutes destCIDR1 peerNodeIP gwIP1).2 destCIDR1
      ⟨1, destCIDR1, gwIP1⟩ (by decide)).1⟩

/-! ## Reconcile -/

/-- One step of the loop of `listRoutes`: a route is stored under its
destination string when it passes the filter, and skipped otherwise. -/
theorem listRoutesLoop_cons (linkIndex : Int) (rt : Route) (routes : List Route)
    (rtMap : RouteMap) :
    listRoutesLoop linkIndex (rt :: routes) rtMap
      = listRoutesLoop linkIndex routes
          (if rt.ours linkIndex = true then rtMap.Store rt.DestinationSubnet.String rt
            else rtMap) := by
  rw [listRoutesLoop]
  by_cases h1 : rt.LinkIndex = linkIndex
  · cases h2 : IP.To4 rt.DestinationSubnet.IP with
    | none => simp [Route.ours, h1, h2]
    | some ip4 =>
      cases h3 : IP.IsGlobalUnicast rt.DestinationSubnet.IP
      · simp [Route.ours, h1, h2, h3]
      · cases h4 : IP.Equal rt.DestinationSubnet.IP (GetLocalBroadcastIP rt.DestinationSubnet)
        · simp [Route.ours, h1, h2, h3, h4]
        · simp [Route.ours, h1, h2, h3, h4]
  · simp [Route.ours, h1]

theorem Load_mem (m : RouteMap) (key : String) (value : Route)
    (h : m.Load key = some value) : (key, value) ∈ m := by
  induction m with
  | nil => simp [RouteMap.Load] at h
  | cons e m ih =>
    obtain ⟨k, v⟩ := e
    rw [Load_cons] at h
    by_cases hk : k = key
    · rw [if_pos hk] at h
      cases h
      rw [hk]
      exact List.mem_cons_self _ _
    · rw [if_neg hk] at h
      exact List.mem_cons_of_mem _ (ih h)

theorem mem_Store (m : RouteMap) (key : String) (value : Route) (e : String × Route)
    (h : e ∈ m.Store key value) : e = (key, value) ∨ e ∈ m := by
  rcases List.mem_cons.1 h with h | h
  · exact Or.inl h
  · exact Or.inr (List.mem_filter.1 h).1

/-- Every entry of the map built by `listRoutes` was in the map before the
loop or is an enumerated route that passes the filter, under its destination
string. -/
theorem listRoutesLoop_mem (linkIndex : Int) (routes : List Route) (rtMap : RouteMap)
    (e : String × Route) (h : e ∈ listRoutesLoop linkIndex routes rtMap) :
    e ∈ rtMap
    ∨ (e.2 ∈ routes ∧ e.2.ours linkIndex = true ∧ e.1 = e.2.DestinationSubnet.String) := by
  induction routes generalizing rtMap with
  | nil => exact Or.inl h
  | cons rt routes ih =>
    rw [listRoutesLoop_cons] at h
    rcases ih _ h with h1 | ⟨h1, h2, h3⟩
    · by_cases ho : rt.ours linkIndex = true
      · rw [if_pos ho] at h1
        rcases mem_Store _ _ _ _ h1 with h1 | h1
        · refine Or.inr ⟨?_, ?_, ?_⟩
          · rw [h1]; exact List.mem_cons_self _ _
          · rw [h1]; exact ho
          · rw [h1]
        · exact Or.inl h1
      · rw [if_neg ho] at h1
        exact Or.inl h1
    · exact Or.inr ⟨List.mem_cons_of_mem _ h1, h2, h3⟩

/-- A key the map holds before the loop of `listRoutes` is still held after
it, by the same route or by an enumerated route that passes the filter. -/
theorem listRoutesLoop_Load_keep (linkIndex : Int) (routes : List Route) (rtMap : RouteMap)
    (key : String) (value : Route) (h : rtMap.Load key = some value) :
    ∃ rt, (listRoutesLoop linkIndex routes rtMap).Load key = some rt
      ∧ (rt = value
          ∨ (rt ∈ routes ∧ rt.ours linkIndex = true ∧ rt.DestinationSubnet.String = key)) := by
  induction routes generalizing rtMap value with
  | nil => exact ⟨value, h, Or.inl rfl⟩
  | cons x routes ih =>
    rw [listRoutesLoop_cons]
    by_cases ho : x.ours linkIndex = true
    · rw [if_pos ho]
      by_cases hk : key = x.DestinationSubnet.String
      · obtain ⟨rt, h1, h2⟩ := ih (rtMap.Store x.DestinationSubnet.String x) x
          (by rw [hk]; exact Load_Store_same _ _ _)
        refine ⟨rt, h1, Or.inr ?_⟩
        rcases h2 with h2 | ⟨h2, h3, h4⟩
        · rw [h2]
          exact ⟨List.mem_cons_self _ _, ho, hk.symm⟩
        · exact ⟨List.mem_cons_of_mem _ h2, h3, h4⟩
      · obtain ⟨rt, h1, h2⟩ := ih (rtMap.Store x.DestinationSubnet.String x) value
          (by rw [Load_Store_other _ _ _ _ hk]; exact h)
        refine ⟨rt, h1, ?_⟩
        rcases h2 with h2 | ⟨h2, h3, h4⟩
        · exact Or.inl h2
        · exact Or.inr ⟨List.mem_cons_of_mem _ h2, h3, h4⟩
    · rw [if_neg ho]
      obtain ⟨rt, h1, h2⟩ := ih rtMap value h
      refine ⟨rt, h1, ?_⟩
      rcases h2 with h2 | ⟨h2, h3, h4⟩
      · exact Or.inl h2
      · exact Or.inr ⟨List.mem_cons_of_mem _ h2, h3, h4⟩

/-- Every enumerated route that passes the filter has its destination string
as a key of the map built by `listRoutes`, held by an enumerated route that
passes the filter and has that destination string. -/
theorem listRoutesLoop_Load_ours (linkIndex : Int) (routes : List Route) (rtMap : RouteMap)
    (r : Route) (hr : r ∈ routes) (ho : r.ours linkIndex = true) :
    ∃ rt, (listRoutesLoop linkIndex routes rtMap).Load r.DestinationSubnet.String = some rt
      ∧ rt ∈ routes ∧ rt.ours linkIndex = true
      ∧ rt.DestinationSubnet.String = r.DestinationSubnet.String := by
  induction routes generalizing rtMap with
  | nil => simp at hr
  | cons x routes ih =>
    rcases List.mem_cons.1 hr with hx | hx
    · subst hx
      rw [listRoutesLoop_cons, if_pos ho]
      obtain ⟨rt, h1, h2⟩ := listRoutesLoop_Load_keep linkIndex routes
        (rtMap.Store r.DestinationSubnet.String r) r.DestinationSubnet.String r
        (Load_Store_same _ _ _)
      refine ⟨rt, h1, ?_⟩
      rcases h2 with h2 | ⟨h2, h3, h4⟩
      · rw [h2]
        exact ⟨List.mem_cons_self _ _, ho, rfl⟩
      · exact ⟨List.mem_cons_of_mem _ h2, h3, h4⟩
    · rw [listRoutesLoop_cons]
      obtain ⟨rt, h1, h2, h3, h4⟩ := ih _ hx
      exact ⟨rt, h1, List.mem_cons_of_mem _ h2, h3, h4⟩


/-- A step of the loop of `Reconcile` on a desired destination. -/
theorem reconcileLoop_desired (desired : List String) (dst : String) (rt : Route)
    (rest : List (String × Route)) (hostRoutes : RouteMap) (p : Platform)
    (h : dst ∈ desired) :
    reconcileLoop desired ((dst, rt) :: rest) hostRoutes p
      = reconcileLoop desired rest (hostRoutes.Store dst rt) p := by
  rw [reconcileLoop, if_pos h]

/-- A step of the loop of `Reconcile` on a destination that is not desired,
the removal succeeding. -/
theorem reconcileLoop_prune (desired : List String) (dst : String) (rt : Route)
    (rest : List (String × Route)) (hostRoutes : RouteMap) (p : Platform)
    (h : dst ∉ desired) (hok : p.nextErr = none) :
    reconcileLoop desired ((dst, rt) :: rest) hostRoutes p
      = reconcileLoop desired rest hostRoutes
          { routes := p.routes.filter fun r =>
              !r.matches rt.LinkIndex rt.DestinationSubnet rt.GatewayAddress
            outcomes := p.outcomes.tail
            calls := p.calls
              ++ [Call.RemoveNetRoute rt.LinkIndex rt.DestinationSubnet rt.GatewayAddress] } := by
  rw [reconcileLoop, if_neg h, RemoveNetRoute_ok _ _ _ _ hok]

/-- A step of the loop of `Reconcile` on a destination that is not desired,
the removal failing. -/
theorem reconcileLoop_abort (desired : List String) (dst : String) (rt : Route)
    (rest : List (String × Route)) (hostRoutes : RouteMap) (p : Platform)
    (h : dst ∉ desired) (e : String) (hfail : p.nextErr = some e) :
    reconcileLoop desired ((dst, rt) :: rest) hostRoutes p
      = (some e, hostRoutes,
          { routes := p.routes
            outcomes := p.outcomes.tail
            calls := p.calls
              ++ [Call.RemoveNetRoute rt.LinkIndex rt.DestinationSubnet rt.GatewayAddress] }) := by
  rw [reconcileLoop, if_neg h, RemoveNetRoute_fail _ _ _ _ e hfail]

/-- The platform calls of the loop of `Reconcile` are removals of listed
routes whose destination is not desired. -/
theorem reconcileLoop_calls (desired : List String) (es : List (String × Route))
    (hostRoutes : RouteMap) (p : Platform) :
    ∃ removes, (reconcileLoop desired es hostRoutes p).2.2.calls = p.calls ++ removes
      ∧ ∀ call ∈ removes, ∃ e ∈ es, e.1 ∉ desired
          ∧ call = Call.RemoveNetRoute e.2.LinkIndex e.2.DestinationSubnet e.2.GatewayAddress := by
  induction es generalizing hostRoutes p with
  | nil => exact ⟨[], by simp [reconcileLoop], by simp⟩
  | cons x rest ih =>
    obtain ⟨dst, rt⟩ := x
    by_cases hd : dst ∈ desired
    · rw [reconcileLoop_desired _ _ _ _ _ _ hd]
      obtain ⟨removes, h1, h2⟩ := ih (hostRoutes.Store dst rt) p
      refine ⟨removes, h1, fun call hc => ?_⟩
      obtain ⟨e, he, h3⟩ := h2 call hc
      exact ⟨e, List.mem_cons_of_mem _ he, h3⟩
    · cases hn : p.nextErr with
      | none =>
        rw [reconcileLoop_prune _ _ _ _ _ _ hd hn]
        obtain ⟨removes, h1, h2⟩ := ih hostRoutes
          { routes := p.routes.filter fun r =>
              !r.matches rt.LinkIndex rt.DestinationSubnet rt.GatewayAddress
            outcomes := p.outcomes.tail
            calls := p.calls
              ++ [Call.RemoveNetRoute rt.LinkIndex rt.DestinationSubnet rt.GatewayAddress] }
        refine ⟨Call.RemoveNetRoute rt.LinkIndex rt.DestinationSubnet rt.GatewayAddress
          :: removes, by rw [h1]; simp, fun call hc => ?_⟩
        rcases List.mem_cons.1 hc with hc | hc
        · exact ⟨(dst, rt), List.mem_cons_self _ _, hd, hc⟩
        · obtain ⟨e, he, h3⟩ := h2 call hc
          exact ⟨e, List.mem_cons_of_mem _ he, h3⟩
      | some err =>
        rw [reconcileLoop_abort _ _ _ _ _ _ hd err hn]
        refine ⟨[Call.RemoveNetRoute rt.LinkIndex rt.DestinationSubnet rt.GatewayAddress],
          rfl, fun call hc => ?_⟩
        exact ⟨(dst, rt), List.mem_cons_self _ _, hd, List.mem_singleton.1 hc⟩

/-- A cache entry after the loop of `Reconcile` was in the cache before it or
is a listed route whose destination is desired. -/
theorem reconcileLoop_Load_from (desired : List String) (es : List (String × Route))
    (hostRoutes : RouteMap) (p : Platform) (key : String) (value : Route)
    (h : (reconcileLoop desired es hostRoutes p).2.1.Load key = some value) :
    hostRoutes.Load key = some value ∨ ((key, value) ∈ es ∧ key ∈ desired) := by
  induction es generalizing hostRoutes p with
  | nil => exact Or.inl h
  | cons x rest ih =>
    obtain ⟨dst, rt⟩ := x
    by_cases hd : dst ∈ desired
    · rw [reconcileLoop_desired _ _ _ _ _ _ hd] at h
      rcases ih _ _ h with h1 | ⟨h1, h2⟩
      · by_cases hk : key = dst
        · rw [hk, Load_Store_same] at h1
          cases h1
          exact Or.inr ⟨by rw [hk]; exact List.mem_cons_self _ _, by rw [hk]; exact hd⟩
        · rw [Load_Store_other _ _ _ _ hk] at h1
          exact Or.inl h1
      · exact Or.inr ⟨List.mem_cons_of_mem _ h1, h2⟩
    · cases hn : p.nextErr with
      | none =>
        rw [reconcileLoop_prune _ _ _ _ _ _ hd hn] at h
        rcases ih _ _ h with h1 | ⟨h1, h2⟩
        · exact Or.inl h1
        · exact Or.inr ⟨List.mem_cons_of_mem _ h1, h2⟩
      | some err =>
        rw [reconcileLoop_abort _ _ _ _ _ _ hd err hn] at h
        exact Or.inl h

/-- The loop of `Reconcile` evicts nothing: a key the cache holds before the
loop is still held after it, by the same route or by a listed route whose
destination is desired. -/
theorem reconcileLoop_Load_keep (desired : List String) (es : List (String × Route))
    (hostRoutes : RouteMap) (p : Platform) (key : String) (value : Route)
    (h : hostRoutes.Load key = some value) :
    ∃ rt, (reconcileLoop desired es hostRoutes p).2.1.Load key = some rt
      ∧ (rt = value ∨ ((key, rt) ∈ es ∧ key ∈ desired)) := by
  induction es generalizing hostRoutes p value with
  | nil => exact ⟨value, h, Or.inl rfl⟩
  | cons x rest ih =>
    obtain ⟨dst, rt⟩ := x
    by_cases hd : dst ∈ desired
    · rw [reconcileLoop_desired _ _ _ _ _ _ hd]
      by_cases hk : key = dst
      · obtain ⟨v, h1, h2⟩ := ih (hostRoutes.Store dst rt) p rt
          (by rw [hk]; exact Load_Store_same _ _ _)
        refine ⟨v, h1, Or.inr ?_⟩
        rcases h2 with h2 | ⟨h2, h3⟩
        · rw [h2, hk]
          exact ⟨List.mem_cons_self _ _, hd⟩
        · exact ⟨List.mem_cons_of_mem _ h2, h3⟩
      · obtain ⟨v, h1, h2⟩ := ih (hostRoutes.Store dst rt) p value
          (by rw [Load_Store_other _ _ _ _ hk]; exact h)
        refine ⟨v, h1, ?_⟩
        rcases h2 with h2 | ⟨h2, h3⟩
        · exact Or.inl h2
        · exact Or.inr ⟨List.mem_cons_of_mem _ h2, h3⟩
    · cases hn : p.nextErr with
      | none =>
        rw [reconcileLoop_prune _ _ _ _ _ _ hd hn]
        obtain ⟨v, h1, h2⟩ := ih hostRoutes _ value h
        refine ⟨v, h1, ?_⟩
        rcases h2 with h2 | ⟨h2, h3⟩
        · exact Or.inl h2
        · exact Or.inr ⟨List.mem_cons_of_mem _ h2, h3⟩
      | some err =>
        rw [reconcileLoop_abort _ _ _ _ _ _ hd err hn]
        exact ⟨value, h, Or.inl rfl⟩

/-- When the loop of `Reconcile` returns nil, every listed destination that
is desired is a key of the cache, held by a listed route. -/
theorem reconcileLoop_adopt (desired : List String) (es : List (String × Route))
    (hostRoutes : RouteMap) (p : Platform)
    (hnil : (reconcileLoop desired es hostRoutes p).1 = none)
    (key : String) (value : Route) (hmem : (key, value) ∈ es) (hkey : key ∈ desired) :
    ∃ rt, (key, rt) ∈ es ∧ (reconcileLoop desired es hostRoutes p).2.1.Load key = some rt := by
  induction es generalizing hostRoutes p with
  | nil => simp at hmem
  | cons x rest ih =>
    obtain ⟨dst, rt⟩ := x
    by_cases hd : dst ∈ desired
    · rw [reconcileLoop_desired _ _ _ _ _ _ hd] at hnil ⊢
      rcases List.mem_cons.1 hmem with hx | hx
      · obtain ⟨hx1, -⟩ := Prod.mk.inj hx
        obtain ⟨v, h1, h2⟩ := reconcileLoop_Load_keep desired rest (hostRoutes.Store dst rt) p
          key rt (by rw [hx1]; exact Load_Store_same _ _ _)
        refine ⟨v, ?_, h1⟩
        rcases h2 with h2 | ⟨h2, -⟩
        · rw [h2, hx1]
          exact List.mem_cons_self _ _
        · exact List.mem_cons_of_mem _ h2
      · obtain ⟨v, h1, h2⟩ := ih _ _ hnil hx
        exact ⟨v, List.mem_cons_of_mem _ h1, h2⟩
    · have hx : (key, value) ∈ rest := by
        rcases List.mem_cons.1 hmem with hx | hx
        · obtain ⟨hx1, -⟩ := Prod.mk.inj hx
          exact absurd (hx1 ▸ hkey) hd
        · exact hx
      cases hn : p.nextErr with
      | none =>
        rw [reconcileLoop_prune _ _ _ _ _ _ hd hn] at hnil ⊢
        obtain ⟨v, h1, h2⟩ := ih _ _ hnil hx
        exact ⟨v, List.mem_cons_of_mem _ h1, h2⟩
      | some err =>
        rw [reconcileLoop_abort _ _ _ _ _ _ hd err hn] at hnil
        simp at hnil

/-- When the loop of `Reconcile` returns nil, the routing table is the one
before the loop without the rows matched by a listed route whose destination
is not desired. -/
theorem reconcileLoop_routes (desired : List String) (es : List (String × Route))
    (hostRoutes : RouteMap) (p : Platform)
    (hnil : (reconcileLoop desired es hostRoutes p).1 = none) :
    (reconcileLoop desired es hostRoutes p).2.2.routes
      = p.routes.filter fun r => es.all fun e =>
          decide (e.1 ∈ desired)
            || !r.matches e.2.LinkIndex e.2.DestinationSubnet e.2.GatewayAddress := by
  induction es generalizing hostRoutes p with
  | nil => simp [reconcileLoop]
  | cons x rest ih =>
    obtain ⟨dst, rt⟩ := x
    by_cases hd : dst ∈ desired
    · rw [reconcileLoop_desired _ _ _ _ _ _ hd] at hnil ⊢
      rw [ih _ _ hnil]
      simp [hd]
    · cases hn : p.nextErr with
      | none =>
        rw [reconcileLoop_prune _ _ _ _ _ _ hd hn] at hnil ⊢
        rw [ih _ _ hnil, List.filter_filter]
        congr 1
        funext r
        simp [hd, Bool.and_comm]
      | some err =>
        rw [reconcileLoop_abort _ _ _ _ _ _ hd err hn] at hnil
        simp at hnil

/-- The loop of `Reconcile` removes no row that no listed route with a
destination that is not desired matches. -/
theorem reconcileLoop_routes_keep (desired : List String) (es : List (String × Route))
    (hostRoutes : RouteMap) (p : Platform) (r : Route) (hr : r ∈ p.routes)
    (hno : ∀ e ∈ es, e.1 ∉ desired →
      r.matches e.2.LinkIndex e.2.DestinationSubnet e.2.GatewayAddress = false) :
    r ∈ (reconcileLoop desired es hostRoutes p).2.2.routes := by
  induction es generalizing hostRoutes p with
  | nil => exact hr
  | cons x rest ih =>
    obtain ⟨dst, rt⟩ := x
    have hrest : ∀ e ∈ rest, e.1 ∉ desired →
        r.matches e.2.LinkIndex e.2.DestinationSubnet e.2.GatewayAddress = false :=
      fun e he => hno e (List.mem_cons_of_mem _ he)
    by_cases hd : dst ∈ desired
    · rw [reconcileLoop_desired _ _ _ _ _ _ hd]
      exact ih _ _ hr hrest
    · cases hn : p.nextErr with
      | none =>
        rw [reconcileLoop_prune _ _ _ _ _ _ hd hn]
        refine ih _ _ ?_ hrest
        refine List.mem_filter.2 ⟨hr, ?_⟩
        rw [hno (dst, rt) (List.mem_cons_self _ _) hd]
        rfl
      | some err =>
        rw [reconcileLoop_abort _ _ _ _ _ _ hd err hn]
        exact hr

/-- The loop of `Reconcile` adds no row to the routing table. -/
theorem reconcileLoop_routes_sub (desired : List String) (es : List (String × Route))
    (hostRoutes : RouteMap) (p : Platform) (r : Route)
    (hr : r ∈ (reconcileLoop desired es hostRoutes p).2.2.routes) : r ∈ p.routes := by
  induction es generalizing hostRoutes p with
  | nil => exact hr
  | cons x rest ih =>
    obtain ⟨dst, rt⟩ := x
    by_cases hd : dst ∈ desired
    · rw [reconcileLoop_desired _ _ _ _ _ _ hd] at hr
      exact ih _ _ hr
    · cases hn : p.nextErr with
      | none =>
        rw [reconcileLoop_prune _ _ _ _ _ _ hd hn] at hr
        exact (List.mem_filter.1 (ih _ _ hr)).1
      | some err =>
        rw [reconcileLoop_abort _ _ _ _ _ _ hd err hn] at hr
        exact hr

/-- `Reconcile` after a failed enumeration. -/
theorem Reconcile_of_fail (c : Client) (podCIDRs : List String) (e : String)
    (hfail : c.nr.nextErr = some e) :
    c.Reconcile podCIDRs = (some e, { c with nr := c.nr.record .GetNetRoutesAll }) := by
  simp [Client.Reconcile, Client.listRoutes, GetNetRoutesAll, hfail]

/-- `Reconcile` after a successful enumeration: the loop runs over the map
built by `listRoutes`. -/
theorem Reconcile_of_ok (c : Client) (podCIDRs : List String) (hok : c.nr.nextErr = none) :
    c.Reconcile podCIDRs
      = ((reconcileLoop podCIDRs
            (listRoutesLoop c.nodeConfig.GatewayConfig.LinkIndex c.nr.routes [])
            c.hostRoutes (c.nr.record .GetNetRoutesAll)).1,
          { c with
            nr := (reconcileLoop podCIDRs
              (listRoutesLoop c.nodeConfig.GatewayConfig.LinkIndex c.nr.routes [])
              c.hostRoutes (c.nr.record .GetNetRoutesAll)).2.2
            hostRoutes := (reconcileLoop podCIDRs
              (listRoutesLoop c.nodeConfig.GatewayConfig.LinkIndex c.nr.routes [])
              c.hostRoutes (c.nr.record .GetNetRoutesAll)).2.1 }) := by
  simp [Client.Reconcile, Client.listRoutes, GetNetRoutesAll, hok]

/-- When `Reconcile` returns nil the enumeration has succeeded. -/
theorem Reconcile_nil_enumerated (c : Client) (podCIDRs : List String)
    (hnil : (c.Reconcile podCIDRs).1 = none) : c.nr.nextErr = none := by
  cases hn : c.nr.nextErr with
  | none => rfl
  | some e =>
    rw [Reconcile_of_fail c podCIDRs e hn] at hnil
    simp at hnil

theorem Route_matches_self (r : Route) :
    r.matches r.LinkIndex r.DestinationSubnet r.GatewayAddress = true := by
  simp [Route.matches, IP_Equal_refl]

theorem Route_matches_key (r : Route) (linkIndex : Int) (dst : IPNet) (gw : IP)
    (h : r.matches linkIndex dst gw = true) :
    r.DestinationSubnet.String = dst.String := by
  simp only [Route.matches, Bool.and_eq_true, decide_eq_true_eq] at h
  rw [h.1.2]

/-- What a `Reconcile` that returns nil prunes when the enumerated routes that
pass the filter have pairwise different destination strings: every such route
whose destination string is not desired is gone from the routing table, every
route whose destination string is desired is still in the table, and the table
has no row it did not have before. -/
theorem Reconcile_prunes (c : Client) (podCIDRs : List String)
    (hnil : (c.Reconcile podCIDRs).1 = none)
    (huniq : ∀ r1 ∈ c.nr.routes, ∀ r2 ∈ c.nr.routes,
      r1.ours c.nodeConfig.GatewayConfig.LinkIndex = true →
      r2.ours c.nodeConfig.GatewayConfig.LinkIndex = true →
      r1.DestinationSubnet.String = r2.DestinationSubnet.String → r1 = r2) :
    (∀ r ∈ c.nr.routes, r.ours c.nodeConfig.GatewayConfig.LinkIndex = true →
        r.DestinationSubnet.String ∉ podCIDRs → r ∉ (c.Reconcile podCIDRs).2.nr.routes)
    ∧ (∀ r ∈ c.nr.routes, r.DestinationSubnet.String ∈ podCIDRs →
        r ∈ (c.Reconcile podCIDRs).2.nr.routes)
    ∧ (∀ r ∈ (c.Reconcile podCIDRs).2.nr.routes, r ∈ c.nr.routes) := by
  have hok := Reconcile_nil_enumerated c podCIDRs hnil
  rw [Reconcile_of_ok c podCIDRs hok] at hnil ⊢
  dsimp only at hnil ⊢
  refine ⟨fun r hr ho hd hmem => ?_, fun r hr hd => ?_, fun r hr => ?_⟩
  · obtain ⟨rt, hload, hrt, hort, hkey⟩ :=
      listRoutesLoop_Load_ours c.nodeConfig.GatewayConfig.LinkIndex c.nr.routes [] r hr ho
    have heq : rt = r := huniq rt hrt r hr hort ho hkey
    rw [heq] at hload
    have hentry := Load_mem _ _ _ hload
    rw [reconcileLoop_routes _ _ _ _ hnil] at hmem
    have hall := (List.mem_filter.1 hmem).2
    rw [List.all_eq_true] at hall
    have h := hall _ hentry
    simp [hd, Route_matches_self] at h
  · refine reconcileLoop_routes_keep _ _ _ _ r hr fun e he hne => ?_
    rcases listRoutesLoop_mem _ _ _ _ he with h | ⟨-, -, hkey⟩
    · simp at h
    · cases hm : r.matches e.2.LinkIndex e.2.DestinationSubnet e.2.GatewayAddress with
      | false => rfl
      | true =>
        have := Route_matches_key _ _ _ _ hm
        rw [← hkey] at this
        exact absurd (this ▸ hd) hne
  · exact reconcileLoop_routes_sub _ _ _ (c.nr.record .GetNetRoutesAll) r hr

theorem Reconcile_prunes_witness :
    ((client0 [⟨1, destCIDR1, gwIP1⟩, ⟨1, destCIDR2, gwIP2⟩] []).Reconcile
        [destCIDR2.String]).1 = none
    ∧ (⟨1, destCIDR1, gwIP1⟩ : Route)
        ∉ ((client0 [⟨1, destCIDR1, gwIP1⟩, ⟨1, destCIDR2, gwIP2⟩] []).Reconcile
            [destCIDR2.String]).2.nr.routes :=
  ⟨by decide,
    (Reconcile_prunes (client0 [⟨1, destCIDR1, gwIP1⟩, ⟨1, destCIDR2, gwIP2⟩] [])
      [destCIDR2.String] (by decide) (by decide)).1 ⟨1, destCIDR1, gwIP1⟩ (by decide)
      (by decide) (by decide)⟩

/-- C3, the code at the failing input: with two routes for `192.168.2.0/24` on
the gateway link, through different gateways, and nothing desired, `Reconcile`
returns nil having issued one removal, for the route enumerated last; the
other route, which passes the filter and is not desired, is still in the
routing table. The client reaches this table by itself: after a restart
(empty cache) with the route through `192.168.2.1` on the platform,
`AddRoutes` for the same subnet through `192.168.3.1` returns nil and adds a
second route, and the `Reconcile` with nothing desired that follows returns
nil and leaves the route through `192.168.2.1`. -/
theorem Reconcile_leaves_orphaned_route :
    ((client0 [⟨1, destCIDR1, gwIP1⟩, ⟨1, destCIDR1, gwIP2⟩] []).Reconcile []).1 = none
    ∧ (⟨1, destCIDR1, gwIP1⟩ : Route).ours 1 = true
    ∧ destCIDR1.String ∉ ([] : List String)
    ∧ ((client0 [⟨1, destCIDR1, gwIP1⟩, ⟨1, destCIDR1, gwIP2⟩] []).Reconcile []).2.nr.routes
        = [⟨1, destCIDR1, gwIP1⟩]
    ∧ ((client0 [⟨1, destCIDR1, gwIP1⟩, ⟨1, destCIDR1, gwIP2⟩] []).Reconcile []).2.nr.calls
        = [Call.GetNetRoutesAll, Call.RemoveNetRoute 1 destCIDR1 gwIP2]
    ∧ ((client0 [⟨1, destCIDR1, gwIP1⟩] []).AddRoutes destCIDR1 peerNodeIP gwIP2).1 = none
    ∧ ((client0 [⟨1, destCIDR1, gwIP1⟩] []).AddRoutes destCIDR1 peerNodeIP gwIP2).2.nr.routes
        = [⟨1, destCIDR1, gwIP1⟩, ⟨1, destCIDR1, gwIP2⟩]
    ∧ (((client0 [⟨1, destCIDR1, gwIP1⟩] []).AddRoutes
          destCIDR1 peerNodeIP gwIP2).2.Reconcile []).1 = none
    ∧ (((client0 [⟨1, destCIDR1, gwIP1⟩] []).AddRoutes
          destCIDR1 peerNodeIP gwIP2).2.Reconcile []).2.nr.routes
        = [⟨1, destCIDR1, gwIP1⟩] := by
  decide

/-- `Reconcile` evicts nothing: every key of the cache is still a key of the
cache after `Reconcile`, whatever the platform holds and whatever is desired. -/
theorem Reconcile_keeps_keys (c : Client) (podCIDRs : List String) (key : String)
    (value : Route) (h : c.hostRoutes.Load key = some value) :
    ∃ rt, (c.Reconcile podCIDRs).2.hostRoutes.Load key = some rt := by
  cases hn : c.nr.nextErr with
  | some e =>
    rw [Reconcile_of_fail c podCIDRs e hn]
    exact ⟨value, h⟩
  | none =>
    rw [Reconcile_of_ok c podCIDRs hn]
    obtain ⟨rt, h1, -⟩ := reconcileLoop_Load_keep podCIDRs
      (listRoutesLoop c.nodeConfig.GatewayConfig.LinkIndex c.nr.routes []) c.hostRoutes
      (c.nr.record .GetNetRoutesAll) key value h
    exact ⟨rt, h1⟩

/-- C4, the code at the failing input: after `AddRoutes` for the subnets
`192.168.2.0/24`, `192.168.3.0/24` and `192.168.4.0/24`, every call
succeeding, `Reconcile` with the last two desired returns nil and removes the
platform route of the first, leaving the other two; but the cache still maps
`192.168.2.0/24` to the removed route, so its keys are not exactly the two
desired ones. -/
theorem Reconcile_leaves_pruned_entry :
    (((((client0 [] []).AddRoutes destCIDR1 peerNodeIP gwIP1).2.AddRoutes
          destCIDR2 peerNodeIP gwIP2).2.AddRoutes destCIDR3 peerNodeIP gwIP3).2.Reconcile
        [destCIDR2.String, destCIDR3.String]).1 = none
    ∧ (((((client0 [] []).AddRoutes destCIDR1 peerNodeIP gwIP1).2.AddRoutes
          destCIDR2 peerNodeIP gwIP2).2.AddRoutes destCIDR3 peerNodeIP gwIP3).2.Reconcile
        [destCIDR2.String, destCIDR3.String]).2.nr.routes
        = [⟨1, destCIDR2, gwIP2⟩, ⟨1, destCIDR3, gwIP3⟩]
    ∧ (((((client0 [] []).AddRoutes destCIDR1 peerNodeIP gwIP1).2.AddRoutes
          destCIDR2 peerNodeIP gwIP2).2.AddRoutes destCIDR3 peerNodeIP gwIP3).2.Reconcile
        [destCIDR2.String, destCIDR3.String]).2.hostRoutes.Load destCIDR1.String
        = some ⟨1, destCIDR1, gwIP1⟩
    ∧ ((((((client0 [] []).AddRoutes destCIDR1 peerNodeIP gwIP1).2.AddRoutes
          destCIDR2 peerNodeIP gwIP2).2.AddRoutes destCIDR3 peerNodeIP gwIP3).2.Reconcile
        [destCIDR2.String, destCIDR3.String]).2.hostRoutes.map Prod.fst).length = 3
    ∧ destCIDR1.String ∉ [destCIDR2.String, destCIDR3.String] := by
  decide

/-- The same inconsistency arises in `AddRoutes` on a gateway change when the
removal succeeds and the add fails: the error is returned, the routing table
has no route for the subnet, and the cache still maps it to the removed route. -/
theorem AddRoutes_failed_add_keeps_entry :
    (((client0 [] [none, none, some "add failed"]).AddRoutes
        destCIDR1 peerNodeIP gwIP1).2.AddRoutes destCIDR1 peerNodeIP gwIP2).1
        = some "add failed"
    ∧ (((client0 [] [none, none, some "add failed"]).AddRoutes
        destCIDR1 peerNodeIP gwIP1).2.AddRoutes destCIDR1 peerNodeIP gwIP2).2.nr.routes = []
    ∧ (((client0 [] [none, none, some "add failed"]).AddRoutes
        destCIDR1 peerNodeIP gwIP1).2.AddRoutes
          destCIDR1 peerNodeIP gwIP2).2.hostRoutes.Load destCIDR1.String
        = some ⟨1, destCIDR1, gwIP1⟩ := by
  decide

/-- C7, the code at the failing input: from the empty cache and an empty
routing table, `AddRoutes` for `192.168.2.0/24` followed by `Reconcile` with
nothing desired, every call succeeding, both return nil; the routing table is
empty again, yet the cache still maps `192.168.2.0/24` to the route that was
removed; a further `AddRoutes` with the same arguments then returns nil and
adds nothing. -/
theorem Reconcile_breaks_cache_invariant :
    ((client0 [] []).AddRoutes destCIDR1 peerNodeIP gwIP1).1 = none
    ∧ (((client0 [] []).AddRoutes destCIDR1 peerNodeIP gwIP1).2.Reconcile []).1 = none
    ∧ (((client0 [] []).AddRoutes destCIDR1 peerNodeIP gwIP1).2.Reconcile []).2.nr.routes = []
    ∧ (((client0 [] []).AddRoutes destCIDR1 peerNodeIP gwIP1).2.Reconcile
        []).2.hostRoutes.Load destCIDR1.String = some ⟨1, destCIDR1, gwIP1⟩
    ∧ ((((client0 [] []).AddRoutes destCIDR1 peerNodeIP gwIP1).2.Reconcile
        []).2.AddRoutes destCIDR1 peerNodeIP gwIP1).1 = none
    ∧ ((((client0 [] []).AddRoutes destCIDR1 peerNodeIP gwIP1).2.Reconcile
        []).2.AddRoutes destCIDR1 peerNodeIP gwIP1).2.nr.routes = [] := by
  decide

theorem Route_ours_link (r : Route) (linkIndex : Int) (h : r.ours linkIndex = true) :
    r.LinkIndex = linkIndex := by
  simp only [Route.ours, Bool.and_eq_true, decide_eq_true_eq] at h
  exact h.1.1.1

/-- The platform calls of `Reconcile`: the enumeration, then removals of
enumerated routes that pass the filter and whose destination string is not
desired. -/
theorem Reconcile_calls (c : Client) (podCIDRs : List String) :
    ∃ removes,
      (c.Reconcile podCIDRs).2.nr.calls = c.nr.calls ++ Call.GetNetRoutesAll :: removes
      ∧ ∀ call ∈ removes, ∃ rt ∈ c.nr.routes,
          rt.ours c.nodeConfig.GatewayConfig.LinkIndex = true
          ∧ rt.DestinationSubnet.String ∉ podCIDRs
          ∧ call = Call.RemoveNetRoute rt.LinkIndex rt.DestinationSubnet rt.GatewayAddress := by
  cases hn : c.nr.nextErr with
  | some e =>
    rw [Reconcile_of_fail c podCIDRs e hn]
    exact ⟨[], rfl, by simp⟩
  | none =>
    rw [Reconcile_of_ok c podCIDRs hn]
    obtain ⟨removes, h1, h2⟩ := reconcileLoop_calls podCIDRs
      (listRoutesLoop c.nodeConfig.GatewayConfig.LinkIndex c.nr.routes []) c.hostRoutes
      (c.nr.record .GetNetRoutesAll)
    refine ⟨removes, ?_, fun call hc => ?_⟩
    · dsimp only
      rw [h1]
      simp [Platform.record]
    · obtain ⟨e, he, hne, hcall⟩ := h2 call hc
      rcases listRoutesLoop_mem _ _ _ _ he with h | ⟨h3, h4, h5⟩
      · simp at h
      · exact ⟨e.2, h3, h4, by rw [← h5]; exact hne, hcall⟩

/-- The cache after a `Reconcile` that returns nil holds, for every
enumerated route that passes the filter and whose destination string is
desired, an enumerated route that passes the filter under that string. -/
theorem Reconcile_adopted (c : Client) (podCIDRs : List String)
    (hnil : (c.Reconcile podCIDRs).1 = none) (r : Route) (hr : r ∈ c.nr.routes)
    (ho : r.ours c.nodeConfig.GatewayConfig.LinkIndex = true)
    (hd : r.DestinationSubnet.String ∈ podCIDRs) :
    ∃ rt, (c.Reconcile podCIDRs).2.hostRoutes.Load r.DestinationSubnet.String = some rt
      ∧ rt ∈ c.nr.routes ∧ rt.ours c.nodeConfig.GatewayConfig.LinkIndex = true
      ∧ rt.DestinationSubnet.String = r.DestinationSubnet.String := by
  have hok := Reconcile_nil_enumerated c podCIDRs hnil
  rw [Reconcile_of_ok c podCIDRs hok] at hnil ⊢
  dsimp only at hnil ⊢
  obtain ⟨rt, hload, -, -, -⟩ :=
    listRoutesLoop_Load_ours c.nodeConfig.GatewayConfig.LinkIndex c.nr.routes [] r hr ho
  obtain ⟨v, hv, hloadv⟩ := reconcileLoop_adopt podCIDRs _ c.hostRoutes
    (c.nr.record .GetNetRoutesAll) hnil _ rt (Load_mem _ _ _ hload) hd
  rcases listRoutesLoop_mem _ _ _ _ hv with h | ⟨h1, h2, h3⟩
  · simp at h
  · exact ⟨v, hloadv, h1, h2, h3.symm⟩

/-- C5, amended: for an enumerated route `r` that passes the filter and whose
destination string is desired, `Reconcile` issues, after the enumeration, only
removals, none of them for the destination string of `r`; and when `Reconcile`
returns nil the cache maps that string to an enumerated route on the gateway
link that passes the filter and has that destination string (`r` itself when
no other such route passes the filter), after which `AddRoutes` for a subnet with that string and a
gateway equal to the recorded one returns nil and changes nothing. -/
theorem Reconcile_adopts (c : Client) (podCIDRs : List String) (r : Route)
    (hr : r ∈ c.nr.routes) (ho : r.ours c.nodeConfig.GatewayConfig.LinkIndex = true)
    (hd : r.DestinationSubnet.String ∈ podCIDRs) :
    (∃ removes,
      (c.Reconcile podCIDRs).2.nr.calls = c.nr.calls ++ Call.GetNetRoutesAll :: removes
      ∧ ∀ call ∈ removes, ∃ linkIndex dst gw,
          call = Call.RemoveNetRoute linkIndex dst gw
          ∧ dst.String ≠ r.DestinationSubnet.String)
    ∧ ((c.Reconcile podCIDRs).1 = none →
        ∃ rt, (c.Reconcile podCIDRs).2.hostRoutes.Load r.DestinationSubnet.String = some rt
          ∧ rt ∈ c.nr.routes
          ∧ rt.LinkIndex = c.nodeConfig.GatewayConfig.LinkIndex
          ∧ rt.ours c.nodeConfig.GatewayConfig.LinkIndex = true
          ∧ rt.DestinationSubnet.String = r.DestinationSubnet.String
          ∧ ((∀ x ∈ c.nr.routes, x.ours c.nodeConfig.GatewayConfig.LinkIndex = true →
                x.DestinationSubnet.String = r.DestinationSubnet.String → x = r) → rt = r)
          ∧ ∀ (podCIDR : IPNet) (peerNodeIP peerGwIP : IP),
              podCIDR.String = r.DestinationSubnet.String →
              IP.Equal rt.GatewayAddress peerGwIP = true →
              (c.Reconcile podCIDRs).2.AddRoutes podCIDR peerNodeIP peerGwIP
                = (none, (c.Reconcile podCIDRs).2)) := by
  constructor
  · obtain ⟨removes, h1, h2⟩ := Reconcile_calls c podCIDRs
    refine ⟨removes, h1, fun call hc => ?_⟩
    obtain ⟨rt, -, -, hne, hcall⟩ := h2 call hc
    exact ⟨_, _, _, hcall, fun h => hne (h ▸ hd)⟩
  · intro hnil
    obtain ⟨rt, hload, hrt, hort, hkey⟩ := Reconcile_adopted c podCIDRs hnil r hr ho hd
    refine ⟨rt, hload, hrt, Route_ours_link _ _ hort, hort, hkey,
      fun hu => hu rt hrt hort hkey, ?_⟩
    intro podCIDR peerNodeIP peerGwIP hs hgw
    exact AddRoutes_cached_same _ podCIDR peerNodeIP peerGwIP rt (by rw [hs]; exact hload) hgw

theorem Reconcile_adopts_witness :
    (⟨1, destCIDR1, gwIP1⟩ : Route) ∈ (client0 [⟨1, destCIDR1, gwIP1⟩] []).nr.routes
    ∧ (⟨1, destCIDR1, gwIP1⟩ : Route).ours 1 = true
    ∧ ∃ rt, ((client0 [⟨1, destCIDR1, gwIP1⟩] []).Reconcile
          [destCIDR1.String]).2.hostRoutes.Load destCIDR1.String = some rt
        ∧ rt ∈ (client0 [⟨1, destCIDR1, gwIP1⟩] []).nr.routes :=
  ⟨by decide, by decide,
    ((Reconcile_adopts (client0 [⟨1, destCIDR1, gwIP1⟩] []) [destCIDR1.String]
        ⟨1, destCIDR1, gwIP1⟩ (by decide) (by decide) (by decide)).2 (by decide)).imp
      fun _ h => ⟨h.1, h.2.1⟩⟩

/-- C5, as stated, fails: the routing table holds a route for `192.168.2.0/24`
on the gateway link that passes the filter, the cache is empty and the subnet
is desired, but the enumeration fails; `Reconcile` returns the error and the
cache still has no entry for the subnet. -/
theorem Reconcile_adopts_counterexample :
    (⟨1, destCIDR1, gwIP1⟩ : Route)
        ∈ (client0 [⟨1, destCIDR1, gwIP1⟩] [some "enumeration failed"]).nr.routes
    ∧ (⟨1, destCIDR1, gwIP1⟩ : Route).ours 1 = true
    ∧ (client0 [⟨1, destCIDR1, gwIP1⟩] [some "enumeration failed"]).hostRoutes.Load
        destCIDR1.String = none
    ∧ destCIDR1.String ∈ [destCIDR1.String]
    ∧ ((client0 [⟨1, destCIDR1, gwIP1⟩] [some "enumeration failed"]).Reconcile
        [destCIDR1.String]).1 = some "enumeration failed"
    ∧ ((client0 [⟨1, destCIDR1, gwIP1⟩] [some "enumeration failed"]).Reconcile
        [destCIDR1.String]).2.hostRoutes.Load destCIDR1.String = none := by
  decide

/-- A route passes the filter exactly when the four conditions of the loop of
`listRoutes` hold. -/
theorem Route_ours_iff (r : Route) (linkIndex : Int) :
    r.ours linkIndex = true
      ↔ r.LinkIndex = linkIndex
        ∧ IP.To4 r.DestinationSubnet.IP ≠ none
        ∧ IP.IsGlobalUnicast r.DestinationSubnet.IP = true
        ∧ IP.Equal r.DestinationSubnet.IP (GetLocalBroadcastIP r.DestinationSubnet) = false := by
  simp only [Route.ours, Bool.and_eq_true, decide_eq_true_eq, Bool.not_eq_true',
    Option.isSome_iff_ne_none]
  tauto

theorem Route_ours_congr (r1 r2 : Route) (linkIndex : Int)
    (hlink : r1.LinkIndex = r2.LinkIndex)
    (hdst : r1.DestinationSubnet = r2.DestinationSubnet) :
    r1.ours linkIndex = r2.ours linkIndex := by
  simp only [Route.ours, hlink, hdst]

/-- The loop of `Reconcile` keeps, in place, every row of the routing table
that no listed route with a destination that is not desired matches. -/
theorem reconcileLoop_routes_filter (desired : List String) (es : List (String × Route))
    (hostRoutes : RouteMap) (p : Platform) (q : Route → Bool)
    (hq : ∀ x, q x = true → ∀ e ∈ es, e.1 ∉ desired →
      x.matches e.2.LinkIndex e.2.DestinationSubnet e.2.GatewayAddress = false) :
    (reconcileLoop desired es hostRoutes p).2.2.routes.filter q = p.routes.filter q := by
  induction es generalizing hostRoutes p with
  | nil => rfl
  | cons x rest ih =>
    obtain ⟨dst, rt⟩ := x
    have hrest : ∀ x, q x = true → ∀ e ∈ rest, e.1 ∉ desired →
        x.matches e.2.LinkIndex e.2.DestinationSubnet e.2.GatewayAddress = false :=
      fun x hx e he => hq x hx e (List.mem_cons_of_mem _ he)
    by_cases hd : dst ∈ desired
    · rw [reconcileLoop_desired _ _ _ _ _ _ hd]
      exact ih _ _ hrest
    · cases hn : p.nextErr with
      | none =>
        rw [reconcileLoop_prune _ _ _ _ _ _ hd hn, ih _ _ hrest]
        dsimp only
        rw [List.filter_filter]
        apply List.filter_congr
        intro x _
        cases hx : q x with
        | false => rfl
        | true =>
          rw [hq x hx (dst, rt) (List.mem_cons_self _ _) hd]
          rfl
      | some err =>
        rw [reconcileLoop_abort _ _ _ _ _ _ hd err hn]

/-- `Reconcile` keeps, in place, every row of the routing table that fails the
filter of `listRoutes`. -/
theorem Reconcile_keeps_filtered (c : Client) (podCIDRs : List String) :
    ((c.Reconcile podCIDRs).2.nr.routes.filter
        fun x => !x.ours c.nodeConfig.GatewayConfig.LinkIndex)
      = c.nr.routes.filter fun x => !x.ours c.nodeConfig.GatewayConfig.LinkIndex := by
  cases hn : c.nr.nextErr with
  | some e => rw [Reconcile_of_fail c podCIDRs e hn]; rfl
  | none =>
    rw [Reconcile_of_ok c podCIDRs hn]
    dsimp only
    rw [reconcileLoop_routes_filter]
    · rfl
    · intro x hx e he _
      rcases listRoutesLoop_mem _ _ _ _ he with h | ⟨-, ho, -⟩
      · simp at h
      · cases hm : x.matches e.2.LinkIndex e.2.DestinationSubnet e.2.GatewayAddress with
        | false => rfl
        | true =>
          simp only [Route.matches, Bool.and_eq_true, decide_eq_true_eq] at hm
          rw [Route_ours_congr x e.2 _ hm.1.1 hm.1.2, ho] at hx
          cases hx

/-- C6: every entry of the map that `listRoutes` returns is an enumerated
route, keyed by its destination string, that is on the configured gateway
link and whose destination is IPv4, global unicast and not the local
broadcast address of its subnet. A route `r` that fails one of the four
conditions is therefore no entry of that map; `Reconcile` does not store it
(if the cache holds it under some key afterwards, it held it under that key
before); none of the removals that `Reconcile` issues names the link index and
destination of `r`; and `Reconcile` does not remove it: when `r` is in the
routing table before `Reconcile` it is in the routing table after it, and the
rows that fail the filter are the same rows, in the same order, before and
after. All this holds whatever the desired set is and whether `Reconcile`
returns nil or an error. -/
theorem listRoutes_filter (c : Client) (podCIDRs : List String) (r : Route)
    (hfail : r.LinkIndex ≠ c.nodeConfig.GatewayConfig.LinkIndex
      ∨ IP.To4 r.DestinationSubnet.IP = none
      ∨ IP.IsGlobalUnicast r.DestinationSubnet.IP = false
      ∨ IP.Equal r.DestinationSubnet.IP (GetLocalBroadcastIP r.DestinationSubnet) = true) :
    (∀ rtMap p, c.listRoutes = (.ok rtMap, p) → ∀ key rt, rtMap.Load key = some rt →
        rt ∈ c.nr.routes
        ∧ key = rt.DestinationSubnet.String
        ∧ rt.LinkIndex = c.nodeConfig.GatewayConfig.LinkIndex
        ∧ IP.To4 rt.DestinationSubnet.IP ≠ none
        ∧ IP.IsGlobalUnicast rt.DestinationSubnet.IP = true
        ∧ IP.Equal rt.DestinationSubnet.IP (GetLocalBroadcastIP rt.DestinationSubnet) = false)
    ∧ (∀ rtMap p, c.listRoutes = (.ok rtMap, p) → ∀ key, rtMap.Load key ≠ some r)
    ∧ (∀ key, (c.Reconcile podCIDRs).2.hostRoutes.Load key = some r →
        c.hostRoutes.Load key = some r)
    ∧ (∃ removes,
        (c.Reconcile podCIDRs).2.nr.calls = c.nr.calls ++ Call.GetNetRoutesAll :: removes
        ∧ ∀ gw, Call.RemoveNetRoute r.LinkIndex r.DestinationSubnet gw ∉ removes)
    ∧ (r ∈ c.nr.routes → r ∈ (c.Reconcile podCIDRs).2.nr.routes)
    ∧ (c.Reconcile podCIDRs).2.nr.routes.count r = c.nr.routes.count r
    ∧ ((c.Reconcile podCIDRs).2.nr.routes.filter
          fun x => !x.ours c.nodeConfig.GatewayConfig.LinkIndex)
        = c.nr.routes.filter fun x => !x.ours c.nodeConfig.GatewayConfig.LinkIndex := by
  have hnot : ¬ r.ours c.nodeConfig.GatewayConfig.LinkIndex = true := by
    rw [Route_ours_iff]
    rintro ⟨h1, h2, h3, h4⟩
    rcases hfail with h | h | h | h
    · exact h h1
    · exact h2 h
    · rw [h3] at h; cases h
    · rw [h4] at h; cases h
  have hlist : ∀ rtMap p, c.listRoutes = (.ok rtMap, p) → ∀ key rt, rtMap.Load key = some rt →
      rt ∈ c.nr.routes ∧ key = rt.DestinationSubnet.String
        ∧ rt.ours c.nodeConfig.GatewayConfig.LinkIndex = true := by
    intro rtMap p hl key rt hload
    cases hn : c.nr.nextErr with
    | some e => simp [Client.listRoutes, GetNetRoutesAll, hn] at hl
    | none =>
      simp only [Client.listRoutes, GetNetRoutesAll, hn, Prod.mk.injEq, Except.ok.injEq] at hl
      rw [← hl.1] at hload
      rcases listRoutesLoop_mem _ _ _ _ (Load_mem _ _ _ hload) with h | h
      · simp at h
      · exact ⟨h.1, h.2.2, h.2.1⟩
  have hkeep := Reconcile_keeps_filtered c podCIDRs
  have hq : (!r.ours c.nodeConfig.GatewayConfig.LinkIndex) = true := by
    simpa using hnot
  have hmemf : ∀ l : List Route,
      r ∈ l ↔ r ∈ l.filter fun x => !x.ours c.nodeConfig.GatewayConfig.LinkIndex :=
    fun l => ⟨fun h => List.mem_filter.2 ⟨h, hq⟩, fun h => (List.mem_filter.1 h).1⟩
  have hcountf : ∀ l : List Route,
      (l.filter fun x => !x.ours c.nodeConfig.GatewayConfig.LinkIndex).count r = l.count r :=
    fun l => List.count_filter hq
  refine ⟨fun rtMap p hl key rt hload => ?_, fun rtMap p hl key hload => ?_,
    fun key hload => ?_, ?_, fun hr => ?_, ?_, hkeep⟩
  · obtain ⟨h1, h2, h3⟩ := hlist rtMap p hl key rt hload
    exact ⟨h1, h2, (Route_ours_iff _ _).1 h3⟩
  · exact hnot (hlist rtMap p hl key r hload).2.2
  · cases hn : c.nr.nextErr with
    | some e =>
      rw [Reconcile_of_fail c podCIDRs e hn] at hload
      exact hload
    | none =>
      rw [Reconcile_of_ok c podCIDRs hn] at hload
      rcases reconcileLoop_Load_from _ _ _ _ _ _ hload with h | ⟨h, -⟩
      · exact h
      · rcases listRoutesLoop_mem _ _ _ _ h with h1 | ⟨-, h1, -⟩
        · simp at h1
        · exact absurd h1 hnot
  · obtain ⟨removes, h1, h2⟩ := Reconcile_calls c podCIDRs
    refine ⟨removes, h1, fun gw hmem => ?_⟩
    obtain ⟨rt, -, hort, -, hcall⟩ := h2 _ hmem
    injection hcall with hlink hdst _
    have h4 := (Route_ours_iff _ _).1 hort
    apply hnot
    rw [Route_ours_iff, hlink, hdst]
    exact h4
  · rw [hmemf, hkeep, ← hmemf]
    exact hr
  · rw [← hcountf, hkeep, hcountf]

theorem listRoutes_filter_witness :
    IP.Equal [192, 168, 2, 255] (GetLocalBroadcastIP ⟨[192, 168, 2, 255], mask32⟩) = true
    ∧ ((client0 [⟨1, ⟨[192, 168, 2, 255], mask32⟩, gwIP1⟩, ⟨1, destCIDR1, gwIP1⟩]
          []).Reconcile []).1 = none
    ∧ (⟨1, destCIDR1, gwIP1⟩ : Route)
        ∉ ((client0 [⟨1, ⟨[192, 168, 2, 255], mask32⟩, gwIP1⟩, ⟨1, destCIDR1, gwIP1⟩]
          []).Reconcile []).2.nr.routes
    ∧ (⟨1, ⟨[192, 168, 2, 255], mask32⟩, gwIP1⟩ : Route)
        ∈ ((client0 [⟨1, ⟨[192, 168, 2, 255], mask32⟩, gwIP1⟩, ⟨1, destCIDR1, gwIP1⟩]
          []).Reconcile []).2.nr.routes :=
  ⟨by decide, by decide, by decide,
    (listRoutes_filter
      (client0 [⟨1, ⟨[192, 168, 2, 255], mask32⟩, gwIP1⟩, ⟨1, destCIDR1, gwIP1⟩] [])
      [] ⟨1, ⟨[192, 168, 2, 255], mask32⟩, gwIP1⟩
      (Or.inr (Or.inr (Or.inr (by decide))))).2.2.2.2.1 (by decide)⟩

/-- C10: when the platform route enumeration fails, `Reconcile` returns that
error, the only platform call it has issued is the enumeration (no removal),
and the routing table and the route cache are unchanged. -/
theorem Reconcile_enumeration_error (c : Client) (podCIDRs : List String) (e : String)
    (hfail : c.nr.nextErr = some e) :
    (c.Reconcile podCIDRs).1 = some e
    ∧ (c.Reconcile podCIDRs).2.nr.calls = c.nr.calls ++ [Call.GetNetRoutesAll]
    ∧ (c.Reconcile podCIDRs).2.nr.routes = c.nr.routes
    ∧ (c.Reconcile podCIDRs).2.hostRoutes = c.hostRoutes := by
  have h : c.Reconcile podCIDRs = (some e, { c with nr := c.nr.record .GetNetRoutesAll }) := by
    simp [Client.Reconcile, Client.listRoutes, GetNetRoutesAll, hfail]
  rw [h]
  exact ⟨rfl, rfl, rfl, rfl⟩

theorem Reconcile_enumeration_error_witness :
    (client0 [⟨1, destCIDR1, gwIP1⟩] [some "access denied"]).nr.nextErr = some "access denied"
    ∧ ((client0 [⟨1, destCIDR1, gwIP1⟩] [some "access denied"]).Reconcile []).2.nr.routes
        = [⟨1, destCIDR1, gwIP1⟩] :=
  ⟨rfl, (Reconcile_enumeration_error (client0 [⟨1, destCIDR1, gwIP1⟩] [some "access denied"])
    [] "access denied" rfl).2.2.1⟩

/-! ## Firewall rules -/

theorem firewallRuleNames_ne : inboundFirewallRuleName ≠ outboundFirewallRuleName := by
  decide

/-- When every outcome to come is a success, so is the next one, and so are
those after it. -/
theorem outcomes_all_none (l : List (Option String)) (h : ∀ o ∈ l, o = none) :
    l.headD none = none ∧ ∀ o ∈ l.tail, o = none := by
  cases l with
  | nil => simp
  | cons o rest =>
    simp only [List.mem_cons, forall_eq_or_imp] at h
    exact ⟨h.1, h.2⟩

/-- An existence query that succeeds. -/
theorem FirewallRuleExists_ok (fw : Firewall) (name : String)
    (h : fw.outcomes.headD none = none) :
    FirewallRuleExists fw name
      = (.ok (fw.has name),
          { rules := fw.rules
            outcomes := fw.outcomes.tail
            calls := fw.calls ++ [FwCall.FirewallRuleExists name] }) := by
  simp only [FirewallRuleExists, h]

/-- A rule creation that succeeds. -/
theorem winFirewallRule_Add_ok (r : winFirewallRule) (fw : Firewall)
    (h : fw.outcomes.headD none = none) :
    r.Add fw
      = (none,
          { rules := fw.rules ++ [(r.name, r.getCommandString)]
            outcomes := fw.outcomes.tail
            calls := fw.calls ++ [FwCall.AddFirewallRule r.getCommandString] }) := by
  simp only [winFirewallRule.Add, h]

/-- What `initFwRules` does when every platform call succeeds: each of the two
rules is queried, in turn, and created when the store does not have it. -/
theorem initFwRules_run (nodeConfig : NodeConfig) (fw : Firewall)
    (hok : ∀ o ∈ fw.outcomes, o = none) :
    (initFwRules nodeConfig fw).1 = none
    ∧ (initFwRules nodeConfig fw).2.rules
        = fw.rules
          ++ (if fw.has inboundFirewallRuleName = true then []
              else [(inboundFirewallRuleName,
                winFirewallRule.getCommandString
                  ⟨inboundFirewallRuleName, fwRuleAllow, fwRuleIn, fwRuleIPProtocol, none,
                    nodeConfig.PodCIDR, [], []⟩)])
          ++ (if fw.has outboundFirewallRuleName = true then []
              else [(outboundFirewallRuleName,
                winFirewallRule.getCommandString
                  ⟨outboundFirewallRuleName, fwRuleAllow, fwRuleOut, fwRuleIPProtocol,
                    nodeConfig.PodCIDR, none, [], []⟩)])
    ∧ (initFwRules nodeConfig fw).2.calls
        = fw.calls
          ++ (FwCall.FirewallRuleExists inboundFirewallRuleName
              :: if fw.has inboundFirewallRuleName = true then []
                else [FwCall.AddFirewallRule (winFirewallRule.getCommandString
                  ⟨inboundFirewallRuleName, fwRuleAllow, fwRuleIn, fwRuleIPProtocol, none,
                    nodeConfig.PodCIDR, [], []⟩)])
          ++ (FwCall.FirewallRuleExists outboundFirewallRuleName
              :: if fw.has outboundFirewallRuleName = true then []
                else [FwCall.AddFirewallRule (winFirewallRule.getCommandString
                  ⟨outboundFirewallRuleName, fwRuleAllow, fwRuleOut, fwRuleIPProtocol,
                    nodeConfig.PodCIDR, none, [], []⟩)])
    ∧ ∀ o ∈ (initFwRules nodeConfig fw).2.outcomes, o = none := by
  obtain ⟨h1, hok1⟩ := outcomes_all_none _ hok
  obtain ⟨h2, hok2⟩ := outcomes_all_none _ hok1
  obtain ⟨h3, hok3⟩ := outcomes_all_none _ hok2
  obtain ⟨h4, hok4⟩ := outcomes_all_none _ hok3
  have hne := firewallRuleNames_ne
  unfold initFwRules
  rw [FirewallRuleExists_ok fw _ h1]
  cases hin : fw.has inboundFirewallRuleName
  · simp only [Bool.not_false, Bool.not_true, ↓reduceIte, Bool.false_eq_true]
    rw [winFirewallRule_Add_ok _ _ h2]
    dsimp only
    rw [FirewallRuleExists_ok _ _ h3]
    have hout : Firewall.has
        { rules := fw.rules ++ [(inboundFirewallRuleName,
            winFirewallRule.getCommandString
              ⟨inboundFirewallRuleName, fwRuleAllow, fwRuleIn, fwRuleIPProtocol, none,
                nodeConfig.PodCIDR, [], []⟩)]
          outcomes := fw.outcomes.tail.tail
          calls := fw.calls ++ [FwCall.FirewallRuleExists inboundFirewallRuleName]
            ++ [FwCall.AddFirewallRule (winFirewallRule.getCommandString
              ⟨inboundFirewallRuleName, fwRuleAllow, fwRuleIn, fwRuleIPProtocol, none,
                nodeConfig.PodCIDR, [], []⟩)] } outboundFirewallRuleName
        = fw.has outboundFirewallRuleName := by
      simp [Firewall.has, List.any_append, hne]
    rw [hout]
    cases hout2 : fw.has outboundFirewallRuleName
    · simp only [Bool.not_false, Bool.not_true, ↓reduceIte, Bool.false_eq_true]
      rw [winFirewallRule_Add_ok _ _ h4]
      exact ⟨rfl, by simp, by simp, hok4⟩
    · exact ⟨rfl, by simp, by simp, hok3⟩
  · simp only [Bool.not_false, Bool.not_true, ↓reduceIte, Bool.false_eq_true]
    rw [FirewallRuleExists_ok _ _ h2]
    have hout : Firewall.has
        { rules := fw.rules
          outcomes := fw.outcomes.tail
          calls := fw.calls ++ [FwCall.FirewallRuleExists inboundFirewallRuleName] }
          outboundFirewallRuleName
        = fw.has outboundFirewallRuleName := rfl
    rw [hout]
    cases hout2 : fw.has outboundFirewallRuleName
    · simp only [Bool.not_false, Bool.not_true, ↓reduceIte, Bool.false_eq_true]
      rw [winFirewallRule_Add_ok _ _ h3]
      exact ⟨rfl, by simp, by simp, hok3⟩
    · exact ⟨rfl, by simp, by simp, hok2⟩

theorem Firewall_has_false_countP (fw : Firewall) (name : String)
    (h : fw.has name = false) : (fw.rules.countP fun r => decide (r.1 = name)) = 0 := by
  rw [List.countP_eq_zero]
  intro r hr
  simp only [Firewall.has, List.any_eq_false, decide_eq_true_eq] at h
  simpa using h r hr

theorem Firewall_has_true_countP (fw : Firewall) (name : String)
    (h : fw.has name = true) : 0 < (fw.rules.countP fun r => decide (r.1 = name)) := by
  rw [List.countP_pos_iff]
  simpa [Firewall.has] using h

/-- C11: from a firewall store whose calls all succeed, `initFwRules` returns
nil and both named rules are then in the store; a second `initFwRules` returns
nil, issues the two existence queries and no add, and leaves the rules of the
store unchanged; the first run adds a rule only for a name the store did not
have, so the number of rules of either name is what it was when the store had
the name and one when it had not: exactly one for a store that keeps at most
one rule per name. -/
theorem initFwRules_idempotent (nodeConfig : NodeConfig) (fw : Firewall)
    (hok : ∀ o ∈ fw.outcomes, o = none) :
    (initFwRules nodeConfig fw).1 = none
    ∧ (initFwRules nodeConfig fw).2.has inboundFirewallRuleName = true
    ∧ (initFwRules nodeConfig fw).2.has outboundFirewallRuleName = true
    ∧ (initFwRules nodeConfig (initFwRules nodeConfig fw).2).1 = none
    ∧ (initFwRules nodeConfig (initFwRules nodeConfig fw).2).2.rules
        = (initFwRules nodeConfig fw).2.rules
    ∧ (initFwRules nodeConfig (initFwRules nodeConfig fw).2).2.calls
        = (initFwRules nodeConfig fw).2.calls
          ++ [FwCall.FirewallRuleExists inboundFirewallRuleName,
              FwCall.FirewallRuleExists outboundFirewallRuleName]
    ∧ (∀ name, name = inboundFirewallRuleName ∨ name = outboundFirewallRuleName →
        ((initFwRules nodeConfig fw).2.rules.countP fun r => decide (r.1 = name))
          = if fw.has name = true then (fw.rules.countP fun r => decide (r.1 = name)) else 1)
    ∧ (∀ name, name = inboundFirewallRuleName ∨ name = outboundFirewallRuleName →
        (fw.rules.countP fun r => decide (r.1 = name)) ≤ 1 →
        ((initFwRules nodeConfig fw).2.rules.countP fun r => decide (r.1 = name)) = 1
        ∧ ((initFwRules nodeConfig (initFwRules nodeConfig fw).2).2.rules.countP
            fun r => decide (r.1 = name)) = 1) := by
  obtain ⟨h1, h2, -, h4⟩ := initFwRules_run nodeConfig fw hok
  have hne := firewallRuleNames_ne
  have hin : (initFwRules nodeConfig fw).2.has inboundFirewallRuleName = true := by
    unfold Firewall.has
    rw [h2]
    cases hi : fw.has inboundFirewallRuleName
    · simp
    · simp only [Firewall.has] at hi
      simp [List.any_append, hi]
  have hout : (initFwRules nodeConfig fw).2.has outboundFirewallRuleName = true := by
    unfold Firewall.has
    rw [h2]
    cases ho : fw.has outboundFirewallRuleName
    · simp
    · simp only [Firewall.has] at ho
      simp [List.any_append, ho]
  obtain ⟨g1, g2, g3, -⟩ := initFwRules_run nodeConfig (initFwRules nodeConfig fw).2 h4
  rw [hin, hout] at g2 g3
  have hcount : ∀ name, name = inboundFirewallRuleName ∨ name = outboundFirewallRuleName →
      ((initFwRules nodeConfig fw).2.rules.countP fun r => decide (r.1 = name))
        = if fw.has name = true then (fw.rules.countP fun r => decide (r.1 = name))
          else 1 := by
    intro name hname
    rw [h2]
    rcases hname with hname | hname
    · subst hname
      cases hi : fw.has inboundFirewallRuleName
      · cases ho : fw.has outboundFirewallRuleName <;>
          simp [List.countP_append, Firewall_has_false_countP fw _ hi, hne.symm]
      · cases ho : fw.has outboundFirewallRuleName <;> simp [List.countP_append, hne.symm]
    · subst hname
      cases ho : fw.has outboundFirewallRuleName
      · cases hi : fw.has inboundFirewallRuleName <;>
          simp [List.countP_append, Firewall_has_false_countP fw _ ho, hne]
      · cases hi : fw.has inboundFirewallRuleName <;> simp [List.countP_append, hne]
  refine ⟨h1, hin, hout, g1, by simpa using g2, by simpa using g3, hcount, ?_⟩
  intro name hname hle
  have hc := hcount name hname
  have hone : ((initFwRules nodeConfig fw).2.rules.countP fun r => decide (r.1 = name)) = 1 := by
    rw [hc]
    cases hh : fw.has name
    · simp
    · have := Firewall_has_true_countP fw name hh
      simp only [if_true]
      omega
  refine ⟨hone, ?_⟩
  have g2' : (initFwRules nodeConfig (initFwRules nodeConfig fw).2).2.rules
      = (initFwRules nodeConfig fw).2.rules := by simpa using g2
  rw [g2']
  exact hone

theorem initFwRules_idempotent_witness :
    (initFwRules nodeConfig1 ⟨[], [], []⟩).2.has inboundFirewallRuleName = true
    ∧ (initFwRules nodeConfig1 ⟨[], [], []⟩).2.has outboundFirewallRuleName = true :=
  ⟨(initFwRules_idempotent nodeConfig1 ⟨[], [], []⟩ (by simp)).2.1,
    (initFwRules_idempotent nodeConfig1 ⟨[], [], []⟩ (by simp)).2.2.1⟩

set_option maxRecDepth 100000 in
/-- The command of the inbound rule for Pod CIDR `P`. -/
theorem inbound_getCommandString (P : IPNet) :
    winFirewallRule.getCommandString
        ⟨inboundFirewallRuleName, fwRuleAllow, fwRuleIn, fwRuleIPProtocol, none, some P, [], []⟩
      = "-Name 'Antrea: accept packets from local pods' -DisplayName 'Antrea: accept packets from local pods' -Direction Inbound -Action Allow -Protocol Any"
        ++ " -RemoteAddress " ++ P.String := by
  have h : "-Name '" ++ inboundFirewallRuleName ++ "' -DisplayName '"
      ++ inboundFirewallRuleName ++ "' -Direction " ++ fwRuleIn ++ " -Action " ++ fwRuleAllow
      ++ " -Protocol " ++ fwRuleIPProtocol
      = "-Name 'Antrea: accept packets from local pods' -DisplayName 'Antrea: accept packets from local pods' -Direction Inbound -Action Allow -Protocol Any" := by
    decide
  simp only [winFirewallRule.getCommandString, h, List.length_nil, gt_iff_lt, lt_self_iff_false,
    if_false]

set_option maxRecDepth 100000 in
/-- The command of the outbound rule for Pod CIDR `P`. -/
theorem outbound_getCommandString (P : IPNet) :
    winFirewallRule.getCommandString
        ⟨outboundFirewallRuleName, fwRuleAllow, fwRuleOut, fwRuleIPProtocol, some P, none, [], []⟩
      = "-Name 'Antrea: accept packets to local pods' -DisplayName 'Antrea: accept packets to local pods' -Direction Outbound -Action Allow -Protocol Any"
        ++ " -LocalAddress " ++ P.String := by
  have h : "-Name '" ++ outboundFirewallRuleName ++ "' -DisplayName '"
      ++ outboundFirewallRuleName ++ "' -Direction " ++ fwRuleOut ++ " -Action " ++ fwRuleAllow
      ++ " -Protocol " ++ fwRuleIPProtocol
      = "-Name 'Antrea: accept packets to local pods' -DisplayName 'Antrea: accept packets to local pods' -Direction Outbound -Action Allow -Protocol Any" := by
    decide
  simp only [winFirewallRule.getCommandString, h, List.length_nil, gt_iff_lt, lt_self_iff_false,
    if_false]

/-- C12, amended: for every Pod CIDR `P`, when the store has neither rule and
every platform call succeeds, `initFwRules` returns nil having issued, in this
order, the query for the inbound name, the add of the inbound rule, the query
for the outbound name and the add of the outbound rule, and the store has
gained exactly these two rules. The inbound rule is Allow, Inbound, Any, with
remote address `P` and no local address or ports; the outbound rule is Allow,
Outbound, Any, with local address `P` and no remote address or ports; the
command of each is the name, display name, direction, action and protocol
followed by the one address option. -/
theorem initFwRules_adds_two (nodeConfig : NodeConfig) (P : IPNet) (fw : Firewall)
    (hP : nodeConfig.PodCIDR = some P)
    (hin : fw.has inboundFirewallRuleName = false)
    (hout : fw.has outboundFirewallRuleName = false)
    (hok : ∀ o ∈ fw.outcomes, o = none) :
    (initFwRules nodeConfig fw).1 = none
    ∧ (initFwRules nodeConfig fw).2.calls
        = fw.calls
          ++ [FwCall.FirewallRuleExists inboundFirewallRuleName,
              FwCall.AddFirewallRule (winFirewallRule.getCommandString
                ⟨inboundFirewallRuleName, fwRuleAllow, fwRuleIn, fwRuleIPProtocol, none, some P,
                  [], []⟩),
              FwCall.FirewallRuleExists outboundFirewallRuleName,
              FwCall.AddFirewallRule (winFirewallRule.getCommandString
                ⟨outboundFirewallRuleName, fwRuleAllow, fwRuleOut, fwRuleIPProtocol, some P,
                  none, [], []⟩)]
    ∧ (initFwRules nodeConfig fw).2.rules
        = fw.rules
          ++ [(inboundFirewallRuleName, winFirewallRule.getCommandString
                ⟨inboundFirewallRuleName, fwRuleAllow, fwRuleIn, fwRuleIPProtocol, none, some P,
                  [], []⟩),
              (outboundFirewallRuleName, winFirewallRule.getCommandString
                ⟨outboundFirewallRuleName, fwRuleAllow, fwRuleOut, fwRuleIPProtocol, some P,
                  none, [], []⟩)]
    ∧ fwRuleAllow = "Allow" ∧ fwRuleIn = "Inbound" ∧ fwRuleOut = "Outbound"
    ∧ fwRuleIPProtocol = "Any"
    ∧ winFirewallRule.getCommandString
        ⟨inboundFirewallRuleName, fwRuleAllow, fwRuleIn, fwRuleIPProtocol, none, some P, [], []⟩
      = "-Name 'Antrea: accept packets from local pods' -DisplayName 'Antrea: accept packets from local pods' -Direction Inbound -Action Allow -Protocol Any"
        ++ " -RemoteAddress " ++ P.String
    ∧ winFirewallRule.getCommandString
        ⟨outboundFirewallRuleName, fwRuleAllow, fwRuleOut, fwRuleIPProtocol, some P, none, [], []⟩
      = "-Name 'Antrea: accept packets to local pods' -DisplayName 'Antrea: accept packets to local pods' -Direction Outbound -Action Allow -Protocol Any"
        ++ " -LocalAddress " ++ P.String := by
  obtain ⟨h1, h2, h3, -⟩ := initFwRules_run nodeConfig fw hok
  rw [hin, hout, hP] at h2 h3
  refine ⟨h1, ?_, ?_, rfl, rfl, rfl, rfl, inbound_getCommandString P,
    outbound_getCommandString P⟩
  · rw [h3]
    simp
  · rw [h2]
    simp

theorem initFwRules_adds_two_witness :
    Firewall.has ⟨[], [], []⟩ inboundFirewallRuleName = false
    ∧ (initFwRules nodeConfig1 ⟨[], [], []⟩).1 = none
    ∧ ((initFwRules nodeConfig1 ⟨[], [], []⟩).2.rules.map Prod.fst)
        = [inboundFirewallRuleName, outboundFirewallRuleName] :=
  ⟨rfl, (initFwRules_adds_two nodeConfig1 podCIDR ⟨[], [], []⟩ rfl rfl rfl (by simp)).1,
    by rw [(initFwRules_adds_two nodeConfig1 podCIDR ⟨[], [], []⟩ rfl rfl rfl
      (by simp)).2.2.1]; rfl⟩

/-- C12, as stated, fails: the store has neither rule, but the first existence
query fails; `initFwRules` returns the error and has added no rule. -/
theorem initFwRules_adds_two_counterexample :
    Firewall.has ⟨[], [some "query failed"], []⟩ inboundFirewallRuleName = false
    ∧ Firewall.has ⟨[], [some "query failed"], []⟩ outboundFirewallRuleName = false
    ∧ (initFwRules nodeConfig1 ⟨[], [some "query failed"], []⟩).1 = some "query failed"
    ∧ (initFwRules nodeConfig1 ⟨[], [some "query failed"], []⟩).2.rules = []
    ∧ (initFwRules nodeConfig1 ⟨[], [some "query failed"], []⟩).2.calls
        = [FwCall.FirewallRuleExists inboundFirewallRuleName] := by
  decide

/-! ## getInfraContainer -/

theorem Split_of_not_mem (s : List Char) (sep : Char) (h : sep ∉ s) :
    strings.Split s sep = [s] := by
  induction s with
  | nil => rfl
  | cons c cs ih =>
    have hc : ¬ c = sep := fun hc => h (hc ▸ List.mem_cons_self _ _)
    have hcs : sep ∉ cs := fun hm => h (List.mem_cons_of_mem _ hm)
    rw [strings.Split, if_neg hc, ih hcs]

/-- `strings.Split` returns one piece more than there are separators. -/
theorem Split_length (s : List Char) (sep : Char) :
    (strings.Split s sep).length = s.count sep + 1 := by
  induction s with
  | nil => rfl
  | cons c cs ih =>
    rw [strings.Split]
    by_cases hc : c = sep
    · rw [if_pos hc, List.length_cons, ih, hc, List.count_cons_self]
    · rw [if_neg hc]
      have hcount : (c :: cs).count sep = cs.count sep := by
        rw [List.count_cons, if_neg (by simpa using hc)]
        rfl
      cases hs : strings.Split cs sep with
      | nil => rw [hs] at ih; simp at ih
      | cons piece pieces =>
        rw [hs] at ih
        rw [hcount]
        simpa using ih

/-- With one separator, `strings.Split` returns the text before it and the
text after it. -/
theorem Split_of_count_one (s : List Char) (sep : Char) (h : s.count sep = 1) :
    strings.Split s sep
      = [s.takeWhile fun c => decide (c ≠ sep), (s.dropWhile fun c => decide (c ≠ sep)).drop 1] := by
  induction s with
  | nil => simp at h
  | cons c cs ih =>
    rw [strings.Split]
    by_cases hc : c = sep
    · rw [if_pos hc]
      rw [hc, List.count_cons_self] at h
      have h0 : sep ∉ cs := List.count_eq_zero.1 (by omega)
      rw [Split_of_not_mem cs sep h0]
      simp [hc]
    · rw [if_neg hc]
      have hcount : (c :: cs).count sep = cs.count sep := by
        rw [List.count_cons, if_neg (by simpa using hc)]
        rfl
      rw [hcount] at h
      rw [ih h]
      simp [hc]

/-- `strings.TrimSpace` leaves a text that neither starts nor ends with white
space as it is. -/
theorem TrimSpace_of_trimmed (s : List Char)
    (hhead : ∀ c, s.head? = some c → unicode.IsSpace c = false)
    (hlast : ∀ c, s.getLast? = some c → unicode.IsSpace c = false) :
    strings.TrimSpace s = s := by
  have hdrop : ∀ l : List Char, (∀ c, l.head? = some c → unicode.IsSpace c = false) →
      l.dropWhile unicode.IsSpace = l := by
    intro l hl
    cases l with
    | nil => rfl
    | cons c cs => rw [List.dropWhile_cons, hl c rfl]; rfl
  unfold strings.TrimSpace
  rw [hdrop s hhead, hdrop s.reverse (by rw [List.head?_reverse]; exact hlast),
    List.reverse_reverse]

theorem isInfraContainer_of_colon (netNS : String) (h : ':' ∈ netNS.data) :
    isInfraContainer netNS = false := by
  have hne : netNS ≠ infraContainerNetNS := by
    intro he
    rw [he] at h
    revert h
    decide
  simp [isInfraContainer, strings.Contains, hne, h]

/-- `strings.TrimSpace` of a text between two runs of white space, the text
neither starting nor ending with white space, is that text. -/
theorem TrimSpace_sandwich (pre t post : List Char)
    (hpre : ∀ c ∈ pre, unicode.IsSpace c = true) (hpost : ∀ c ∈ post, unicode.IsSpace c = true)
    (hhead : ∀ c, t.head? = some c → unicode.IsSpace c = false)
    (hlast : ∀ c, t.getLast? = some c → unicode.IsSpace c = false) :
    strings.TrimSpace (pre ++ t ++ post) = t := by
  unfold strings.TrimSpace
  rw [List.append_assoc, List.dropWhile_append_of_pos hpre]
  cases t with
  | nil =>
    rw [List.nil_append, List.dropWhile_eq_nil_iff.2 hpost]
    rfl
  | cons a t1 =>
    have ha : unicode.IsSpace a = false := hhead a rfl
    have h1 : List.dropWhile unicode.IsSpace (a :: t1 ++ post) = a :: t1 ++ post := by
      rw [List.cons_append, List.dropWhile_cons, ha]
      rfl
    rw [h1, List.reverse_append,
      List.dropWhile_append_of_pos (fun c hc => hpost c (List.mem_reverse.1 hc))]
    have h2 : List.dropWhile unicode.IsSpace (a :: t1).reverse = (a :: t1).reverse := by
      cases hr : (a :: t1).reverse with
      | nil => rfl
      | cons b rest =>
        have hb : unicode.IsSpace b = false := by
          apply hlast b
          rw [← List.head?_reverse, hr]
          rfl
        rw [List.dropWhile_cons, hb]
        rfl
    rw [h2, List.reverse_reverse]

/-- What `strings.TrimSpace` returns: the text is a run of white space, then
the result, then a run of white space, and the result neither starts nor ends
with white space. -/
theorem TrimSpace_spec (s : List Char) :
    ∃ pre post, s = pre ++ strings.TrimSpace s ++ post
      ∧ (∀ c ∈ pre, unicode.IsSpace c = true) ∧ (∀ c ∈ post, unicode.IsSpace c = true)
      ∧ (∀ c, (strings.TrimSpace s).head? = some c → unicode.IsSpace c = false)
      ∧ (∀ c, (strings.TrimSpace s).getLast? = some c → unicode.IsSpace c = false) := by
  have hd : s.dropWhile unicode.IsSpace
      = strings.TrimSpace s
        ++ ((s.dropWhile unicode.IsSpace).reverse.takeWhile unicode.IsSpace).reverse := by
    unfold strings.TrimSpace
    rw [← List.reverse_append, List.takeWhile_append_dropWhile, List.reverse_reverse]
  have hlast : ∀ c, (strings.TrimSpace s).getLast? = some c → unicode.IsSpace c = false := by
    intro c hc
    unfold strings.TrimSpace at hc
    rw [List.getLast?_reverse] at hc
    have := List.head?_dropWhile_not unicode.IsSpace (s.dropWhile unicode.IsSpace).reverse
    rw [hc] at this
    exact this
  refine ⟨s.takeWhile unicode.IsSpace,
    ((s.dropWhile unicode.IsSpace).reverse.takeWhile unicode.IsSpace).reverse, ?_,
    fun c hc => List.mem_takeWhile_imp hc,
    fun c hc => List.mem_takeWhile_imp (List.mem_reverse.1 hc), ?_, hlast⟩
  · rw [List.append_assoc, ← hd, List.takeWhile_append_dropWhile]
  · intro c hc
    have hne : strings.TrimSpace s ≠ [] := by
      intro h
      rw [h] at hc
      cases hc
    have hh := List.head?_dropWhile_not unicode.IsSpace s
    rw [hd, List.head?_append_of_ne_nil _ hne, hc] at hh
    exact hh

/-- C15: `getInfraContainer` returns the container ID when the network
namespace is "none" or has no colon; with exactly one colon it returns the
text after the colon with the white space around it trimmed: the text after
the colon is a run of white space, then the result, then a run of white space,
and the result neither starts nor ends with white space. So for "container:"
followed by an ID that has no colon and no white space at either end, with or
without white space around the ID, it returns that ID. With two or more
colons it returns the container ID. White space is the characters of Go
`unicode.IsSpace`. -/
theorem getInfraContainer_cases (containerID netNS : String) :
    ((netNS = "none" ∨ ':' ∉ netNS.data) → getInfraContainer containerID netNS = containerID)
    ∧ (netNS.data.count ':' = 1 →
        getInfraContainer containerID netNS
          = String.mk (strings.TrimSpace
              ((netNS.data.dropWhile fun c => decide (c ≠ ':')).drop 1)))
    ∧ (netNS.data.count ':' = 1 →
        ∃ pre post,
          (netNS.data.dropWhile fun c => decide (c ≠ ':')).drop 1
            = pre ++ (getInfraContainer containerID netNS).data ++ post
          ∧ (∀ c ∈ pre, unicode.IsSpace c = true) ∧ (∀ c ∈ post, unicode.IsSpace c = true)
          ∧ (∀ c, (getInfraContainer containerID netNS).data.head? = some c →
              unicode.IsSpace c = false)
          ∧ (∀ c, (getInfraContainer containerID netNS).data.getLast? = some c →
              unicode.IsSpace c = false))
    ∧ (2 ≤ netNS.data.count ':' → getInfraContainer containerID netNS = containerID)
    ∧ (∀ id : String, ':' ∉ id.data →
        (∀ c, id.data.head? = some c → unicode.IsSpace c = false) →
        (∀ c, id.data.getLast? = some c → unicode.IsSpace c = false) →
        getInfraContainer containerID ("container:" ++ id) = id)
    ∧ (∀ (id : String) (pre post : List Char), ':' ∉ id.data →
        (∀ c, id.data.head? = some c → unicode.IsSpace c = false) →
        (∀ c, id.data.getLast? = some c → unicode.IsSpace c = false) →
        (∀ c ∈ pre, unicode.IsSpace c = true) → (∀ c ∈ post, unicode.IsSpace c = true) →
        getInfraContainer containerID ("container:" ++ String.mk pre ++ id ++ String.mk post)
          = id)
    ∧ (∀ c : Char, unicode.IsSpace c = true ↔
        c.toNat ∈ [0x09, 0x0a, 0x0b, 0x0c, 0x0d, 0x20, 0x85, 0xa0, 0x1680, 0x2000, 0x2001,
          0x2002, 0x2003, 0x2004, 0x2005, 0x2006, 0x2007, 0x2008, 0x2009, 0x200a, 0x2028,
          0x2029, 0x202f, 0x205f, 0x3000]) := by
  have hone : ∀ n : String, n.data.count ':' = 1 →
      getInfraContainer containerID n
        = String.mk (strings.TrimSpace ((n.data.dropWhile fun c => decide (c ≠ ':')).drop 1)) := by
    intro n h
    have hmem : ':' ∈ n.data := List.count_pos_iff.1 (by omega)
    simp only [getInfraContainer, isInfraContainer_of_colon n hmem, Split_of_count_one _ _ h]
    simp
  have hsand : ∀ (id : String) (pre post : List Char), ':' ∉ id.data →
      (∀ c, id.data.head? = some c → unicode.IsSpace c = false) →
      (∀ c, id.data.getLast? = some c → unicode.IsSpace c = false) →
      (∀ c ∈ pre, unicode.IsSpace c = true) → (∀ c ∈ post, unicode.IsSpace c = true) →
      getInfraContainer containerID ("container:" ++ String.mk pre ++ id ++ String.mk post)
        = id := by
    intro id pre post hid hhead hlast hpre hpost
    have hnc : ∀ l : List Char, (∀ c ∈ l, unicode.IsSpace c = true) → ':' ∉ l := by
      intro l hl hmem
      exact absurd (hl _ hmem) (by decide)
    have hdata : ("container:" ++ String.mk pre ++ id ++ String.mk post).data
        = ['c', 'o', 'n', 't', 'a', 'i', 'n', 'e', 'r', ':'] ++ (pre ++ id.data ++ post) := by
      simp only [String.data_append, List.append_assoc]
    have hcount : ("container:" ++ String.mk pre ++ id ++ String.mk post).data.count ':'
        = 1 := by
      rw [hdata, List.count_append, List.count_append, List.count_append,
        List.count_eq_zero.2 hid, List.count_eq_zero.2 (hnc pre hpre),
        List.count_eq_zero.2 (hnc post hpost)]
      rfl
    rw [hone _ hcount, hdata]
    have hdrop : ((['c', 'o', 'n', 't', 'a', 'i', 'n', 'e', 'r', ':']
        ++ (pre ++ id.data ++ post)).dropWhile fun c => decide (c ≠ ':')).drop 1
        = pre ++ id.data ++ post := by
      simp [List.dropWhile]
    rw [hdrop, TrimSpace_sandwich pre id.data post hpre hpost hhead hlast]
  refine ⟨fun h => ?_, hone netNS, fun h => ?_, fun h => ?_, fun id hid hhead hlast => ?_,
    hsand, fun c => ?_⟩
  · have hinfra : isInfraContainer netNS = true := by
      rcases h with h | h
      · simp [isInfraContainer, h, infraContainerNetNS]
      · simp [isInfraContainer, strings.Contains, h]
    simp [getInfraContainer, hinfra]
  · rw [hone netNS h]
    exact TrimSpace_spec _
  · have hmem : ':' ∈ netNS.data := List.count_pos_iff.1 (by omega)
    have hlen := Split_length netNS.data ':'
    simp only [getInfraContainer, isInfraContainer_of_colon netNS hmem]
    rw [if_pos (show (strings.Split netNS.data ':').length ≠ 2 by omega)]
    simp
  · have := hsand id [] [] hid hhead hlast (by simp) (by simp)
    have he : "container:" ++ String.mk [] ++ id ++ String.mk [] = "container:" ++ id := by
      apply String.ext
      simp [String.data_append]
    rw [he] at this
    exact this
  · simp only [unicode.IsSpace, Bool.or_eq_true, decide_eq_true_eq, Bool.decide_and,
      Bool.and_eq_true, List.mem_cons, List.mem_singleton, List.not_mem_nil, or_false]
    omega

theorem getInfraContainer_cases_witness :
    unicode.IsSpace ' ' = true ∧ unicode.IsSpace (Char.ofNat 9) = true
    ∧ getInfraContainer "0cd7ab3d"
        ("container:" ++ String.mk [' '] ++ "067e66fa" ++ String.mk [Char.ofNat 9])
      = "067e66fa" :=
  ⟨by decide, by decide,
    (getInfraContainer_cases "0cd7ab3d" "none").2.2.2.2.2.1 "067e66fa" [' '] [Char.ofNat 9]
      (by decide) (by decide) (by decide) (by decide) (by decide)⟩

/-! ## OVSPortParam -/

/-- C16: `UnmarshalJson` leaves the `Ips` of the receiver as they were, on
every input (so on every input it accepts). Hence, when `MarshalJson` of a
parameter `p` gives `data`, the JSON library reads `data` back as the value it
was made from, and `UnmarshalJson` accepts `data` on a fresh value, that value
ends with the names, container ID and interfaces of `p` and with empty `Ips`.
And every value that `LoadOVSPortParam` returns has empty `Ips`. -/
theorem UnmarshalJson_drops_Ips (json : JSON) :
    (∀ (ovsPortParam : OVSPortParam) (data : String),
        (ovsPortParam.UnmarshalJson json data).2.Ips = ovsPortParam.Ips)
    ∧ (∀ (p : OVSPortParam) (data : String),
        p.MarshalJson json = .ok data →
        (∀ x, json.Marshal x = .ok data → json.Unmarshal data = .ok x) →
        (OVSPortParam.UnmarshalJson json ⟨"", "", "", none, none, []⟩ data).1 = none →
        (OVSPortParam.UnmarshalJson json ⟨"", "", "", none, none, []⟩ data).2
          = { PodName := p.PodName
              PodNameSpace := p.PodNameSpace
              ContainerID := p.ContainerID
              HostIface := p.HostIface
              ContainerIface := p.ContainerIface
              Ips := [] })
    ∧ (∀ (ep : HNSEndpoint) (value : OVSPortParam),
        (LoadOVSPortParam json ep).1 = some value → value.Ips = []) := by
  refine ⟨fun ovsPortParam data => ?_, fun p data hm hrt _ => ?_, fun ep value h => ?_⟩
  · unfold OVSPortParam.UnmarshalJson
    cases json.Unmarshal data with
    | error err => rfl
    | ok internal =>
      dsimp only
      cases unmarshalIps json internal.Ips <;> rfl
  · unfold OVSPortParam.MarshalJson at hm
    cases hips : marshalIps json p.Ips with
    | error err => rw [hips] at hm; cases hm
    | ok ipsString =>
      rw [hips] at hm
      cases hh : p.HostIface with
      | none => rw [hh] at hm; cases hm
      | some hostIface =>
        cases hc : p.ContainerIface with
        | none => rw [hh, hc] at hm; cases hm
        | some containerIface =>
          rw [hh, hc] at hm
          dsimp only at hm
          cases hj : json.Marshal
              { PodName := p.PodName
                PodNameSpace := p.PodNameSpace
                ContainerID := p.ContainerID
                HostIface := hostIface
                ContainerIface := containerIface
                Ips := ipsString } with
          | error err => rw [hj] at hm; cases hm
          | ok out =>
            rw [hj] at hm
            cases hm
            have hback := hrt _ hj
            unfold OVSPortParam.UnmarshalJson
            rw [hback]
            dsimp only
            cases unmarshalIps json ipsString <;> rfl
  · unfold LoadOVSPortParam at h
    cases hl : ep.AdditionalParams.lookup "ovsPortParam" with
    | none => rw [hl] at h; cases h
    | some paramStr =>
      rw [hl] at h
      dsimp only at h
      cases hu : json.Unmarshal paramStr with
      | error err => rw [hu] at h; cases h
      | ok internal =>
        rw [hu] at h
        dsimp only at h
        cases hi : unmarshalIps json internal.Ips with
        | error err => rw [hi] at h; cases h
        | ok ipConfigs =>
          rw [hi] at h
          cases h
          rfl

theorem UnmarshalJson_drops_Ips_witness :
    param1.MarshalJson json1 = .ok "param1"
    ∧ param1.Ips ≠ []
    ∧ (OVSPortParam.UnmarshalJson json1 ⟨"", "", "", none, none, []⟩ "param1").1 = none
    ∧ (OVSPortParam.UnmarshalJson json1 ⟨"", "", "", none, none, []⟩ "param1").2
        = { PodName := param1.PodName
            PodNameSpace := param1.PodNameSpace
            ContainerID := param1.ContainerID
            HostIface := param1.HostIface
            ContainerIface := param1.ContainerIface
            Ips := [] } :=
  ⟨by decide, by decide, by decide,
    (UnmarshalJson_drops_Ips json1).2.1 param1 "param1" (by decide)
      (fun x hx => by
        have hx1 : x = internal1 := by
          by_cases h : x = internal1
          · exact h
          · simp [json1, h] at hx
        rw [hx1]
        simp [json1])
      (by decide)⟩

/-! ## prepareOVSBridge -/

/-- The network lookup when it succeeds. -/
theorem GetHNSNetworkByName_ok (i : Initializer) (name : String) (hnsNetwork : HNSNetwork)
    (hok : i.outcomes.headD none = none) (hnet : i.hnsNetworks.lookup name = some hnsNetwork) :
    GetHNSNetworkByName i name
      = (.ok hnsNetwork,
          { i with
            outcomes := i.outcomes.tail
            calls := i.calls ++ [AgentCall.GetHNSNetworkByName name] }) := by
  simp only [GetHNSNetworkByName, Initializer.call, hok, hnet]

/-- Setting the datapath identifier when it succeeds. -/
theorem SetDatapathID_ok (i : Initializer) (datapathID : String)
    (hok : i.outcomes.headD none = none) :
    SetDatapathID i datapathID
      = (none,
          { i with
            datapathID := some datapathID
            outcomes := i.outcomes.tail
            calls := i.calls ++ [AgentCall.SetDatapathID datapathID] }) := by
  simp only [SetDatapathID, Initializer.call, hok]

/-- The port query when it succeeds. -/
theorem GetOFPort_ok (i : Initializer) (ifName : String) (port : OVSPortConfig)
    (hok : i.outcomes.headD none = none) (hport : i.ovsPorts.lookup ifName = some port) :
    GetOFPort i ifName
      = (.ok port.OFPort,
          { i with
            outcomes := i.outcomes.tail
            calls := i.calls ++ [AgentCall.GetOFPort ifName] }) := by
  simp only [GetOFPort, Initializer.call, hok, hport]

/-- C14: when the network lookup and `SetDatapathID` succeed and the switch
already has a port for the uplink, so that the port query succeeds,
`prepareOVSBridge` returns nil; the calls it has made are the network lookup,
`SetDatapathID` and then the port query, and no other (no `CreateUplinkPort`,
no `AddInterface`, no call on the bridge adapter); the interface store, the
ports of the switch and the state, hardware address and IPv4 address of the
bridge are unchanged. -/
theorem prepareOVSBridge_uplink_exists (i : Initializer) (hnsNetwork : HNSNetwork)
    (port : OVSPortConfig)
    (hnet : i.hnsNetworks.lookup i.LocalHNSNetwork = some hnsNetwork)
    (hport : i.ovsPorts.lookup hnsNetwork.NetworkAdapterName = some port)
    (hok : ∀ o ∈ i.outcomes.take 3, o = none) :
    i.prepareOVSBridge.1 = none
    ∧ i.prepareOVSBridge.2.calls
        = i.calls
          ++ [AgentCall.GetHNSNetworkByName i.LocalHNSNetwork,
              AgentCall.SetDatapathID ("0000" ++ strings.Replace hnsNetwork.SourceMac ':'),
              AgentCall.GetOFPort hnsNetwork.NetworkAdapterName]
    ∧ i.prepareOVSBridge.2.ifaceStore = i.ifaceStore
    ∧ i.prepareOVSBridge.2.ovsPorts = i.ovsPorts
    ∧ i.prepareOVSBridge.2.bridgeEnabled = i.bridgeEnabled
    ∧ i.prepareOVSBridge.2.bridgeMac = i.bridgeMac
    ∧ i.prepareOVSBridge.2.bridgeIPv4 = i.bridgeIPv4
    ∧ i.prepareOVSBridge.2.datapathID
        = some ("0000" ++ strings.Replace hnsNetwork.SourceMac ':') := by
  obtain ⟨h1, hok1⟩ := outcomes_take_succ _ 2 hok
  obtain ⟨h2, hok2⟩ := outcomes_take_succ _ 1 hok1
  obtain ⟨h3, -⟩ := outcomes_take_succ _ 0 hok2
  unfold Initializer.prepareOVSBridge
  rw [GetHNSNetworkByName_ok i _ hnsNetwork h1 hnet]
  dsimp only
  rw [SetDatapathID_ok _ _ h2]
  dsimp only
  simp only [GetOFPort, Initializer.call, h3, hport]
  simp

theorem prepareOVSBridge_uplink_exists_witness :
    (initializer0 "00:15:5d:01:02:03" [("Ethernet0", ⟨"uuid-0", 4⟩)]).prepareOVSBridge.1 = none
    ∧ (initializer0 "00:15:5d:01:02:03"
        [("Ethernet0", ⟨"uuid-0", 4⟩)]).prepareOVSBridge.2.ifaceStore = [] :=
  ⟨(prepareOVSBridge_uplink_exists
      (initializer0 "00:15:5d:01:02:03" [("Ethernet0", ⟨"uuid-0", 4⟩)])
      ⟨"Ethernet0", "00:15:5d:01:02:03", "10.0.0.5/24"⟩ ⟨"uuid-0", 4⟩ (by decide) (by decide)
      (by simp [initializer0])).1,
    (prepareOVSBridge_uplink_exists
      (initializer0 "00:15:5d:01:02:03" [("Ethernet0", ⟨"uuid-0", 4⟩)])
      ⟨"Ethernet0", "00:15:5d:01:02:03", "10.0.0.5/24"⟩ ⟨"uuid-0", 4⟩ (by decide) (by decide)
      (by simp [initializer0])).2.2.1⟩

theorem EnableHostInterface_calls (i : Initializer) (ifaceName : String) :
    i.calls <+: (EnableHostInterface i ifaceName).2.calls := by
  unfold EnableHostInterface Initializer.call
  cases i.outcomes.headD none <;> exact List.prefix_append _ _

theorem ConfigureMacAddress_calls (i : Initializer) (ifaceName : String) (mac : HardwareAddr) :
    i.calls <+: (ConfigureMacAddress i ifaceName mac).2.calls := by
  unfold ConfigureMacAddress Initializer.call
  cases i.outcomes.headD none <;> exact List.prefix_append _ _

theorem GetAdapterIPv4Addr_calls (i : Initializer) (adapterName : String) :
    i.calls <+: (GetAdapterIPv4Addr i adapterName).2.calls := by
  unfold GetAdapterIPv4Addr Initializer.call
  cases i.outcomes.headD none with
  | some err => exact List.prefix_append _ _
  | none => cases i.bridgeIPv4 <;> exact List.prefix_append _ _

theorem RemoveIPv4Addrs_calls (i : Initializer) (ifaceName : String) :
    i.calls <+: (RemoveIPv4Addrs i ifaceName).2.calls := by
  unfold RemoveIPv4Addrs Initializer.call
  cases i.outcomes.headD none <;> exact List.prefix_append _ _

theorem ConfigureInterfaceAddress_calls (i : Initializer) (ifaceName : String)
    (ipConfig : IPNet) :
    i.calls <+: (ConfigureInterfaceAddress i ifaceName ipConfig).2.calls := by
  unfold ConfigureInterfaceAddress Initializer.call
  cases i.outcomes.headD none <;> exact List.prefix_append _ _

theorem CreateUplinkPort_calls (i : Initializer) (name ifDev : String) (ofPortRequest : Int) :
    i.calls <+: (CreateUplinkPort i name ifDev ofPortRequest).2.calls := by
  unfold CreateUplinkPort Initializer.call
  cases i.outcomes.headD none <;> exact List.prefix_append _ _

theorem GetOFPort_calls (i : Initializer) (ifName : String) :
    i.calls <+: (GetOFPort i ifName).2.calls := by
  unfold GetOFPort Initializer.call
  cases i.outcomes.headD none with
  | some err => exact List.prefix_append _ _
  | none => cases i.ovsPorts.lookup ifName <;> exact List.prefix_append _ _

/-- Replacing the addresses of the bridge only adds to the call log. -/
theorem replaceAddress_calls (i : Initializer) (brName : String) (ifIpAddr : IPNet) :
    i.calls <+: (match RemoveIPv4Addrs i brName with
      | (some err, i5) => (some err, i5)
      | (none, i5) => ConfigureInterfaceAddress i5 brName ifIpAddr).2.calls := by
  have h5 := RemoveIPv4Addrs_calls i brName
  cases hr : RemoveIPv4Addrs i brName with
  | mk e i5 =>
    rw [hr] at h5
    cases e with
    | some err => exact h5
    | none => exact h5.trans (ConfigureInterfaceAddress_calls i5 brName ifIpAddr)

/-- The steps that move the addresses only add to the call log. -/
theorem moveAddresses_calls (i : Initializer) (hnsNetwork : HNSNetwork) :
    i.calls <+: (moveAddresses i hnsNetwork).2.calls := by
  unfold moveAddresses
  cases i.ParseCIDR hnsNetwork.ManagementIP with
  | error err => exact List.prefix_refl _
  | ok parsed =>
    obtain ⟨ipAddr, ipNet⟩ := parsed
    simp only [GetBridgeName]
    have h1 : i.calls <+: i.calls ++ [AgentCall.GetBridgeName] := List.prefix_append _ _
    have h2 := EnableHostInterface_calls { i with calls := i.calls ++ [AgentCall.GetBridgeName] }
      i.bridgeName
    cases he : EnableHostInterface { i with calls := i.calls ++ [AgentCall.GetBridgeName] }
        i.bridgeName with
    | mk e i2 =>
      rw [he] at h2
      cases e with
      | some err => exact h1.trans h2
      | none =>
        dsimp only
        cases ParseMAC hnsNetwork.SourceMac with
        | none => exact h1.trans h2
        | some macAddr =>
          dsimp only
          have h3 := ConfigureMacAddress_calls i2 i.bridgeName macAddr
          cases hc : ConfigureMacAddress i2 i.bridgeName macAddr with
          | mk e3 i3 =>
            rw [hc] at h3
            cases e3 with
            | some err => exact (h1.trans h2).trans h3
            | none =>
              dsimp only
              have h4 := GetAdapterIPv4Addr_calls i3 i.bridgeName
              cases hg : GetAdapterIPv4Addr i3 i.bridgeName with
              | mk r i4 =>
                rw [hg] at h4
                have h5 := replaceAddress_calls i4 i.bridgeName ⟨ipAddr, ipNet.Mask⟩
                cases r with
                | error err => exact ((h1.trans h2).trans h3).trans (h4.trans h5)
                | ok existingIpAddr =>
                  dsimp only
                  split
                  · exact ((h1.trans h2).trans h3).trans h4
                  · exact ((h1.trans h2).trans h3).trans (h4.trans h5)

/-- Once the network lookup has succeeded, the call that `prepareOVSBridge`
makes next is `SetDatapathID` with "0000" followed by the hardware address of
the network without its colons. -/
theorem prepareOVSBridge_calls (i : Initializer) (hnsNetwork : HNSNetwork)
    (hok : i.outcomes.headD none = none)
    (hnet : i.hnsNetworks.lookup i.LocalHNSNetwork = some hnsNetwork) :
    i.calls
        ++ [AgentCall.GetHNSNetworkByName i.LocalHNSNetwork,
            AgentCall.SetDatapathID ("0000" ++ strings.Replace hnsNetwork.SourceMac ':')]
      <+: i.prepareOVSBridge.2.calls := by
  unfold Initializer.prepareOVSBridge
  rw [GetHNSNetworkByName_ok i _ hnsNetwork hok hnet]
  dsimp only
  unfold SetDatapathID Initializer.call
  dsimp only
  cases i.outcomes.tail.headD none with
  | some err =>
    dsimp only
    rw [List.append_assoc]
    exact List.prefix_refl _
  | none =>
    dsimp only
    have h3 := GetOFPort_calls
      { i with
        datapathID := some ("0000" ++ strings.Replace hnsNetwork.SourceMac ':')
        outcomes := i.outcomes.tail.tail
        calls := i.calls ++ [AgentCall.GetHNSNetworkByName i.LocalHNSNetwork]
          ++ [AgentCall.SetDatapathID ("0000" ++ strings.Replace hnsNetwork.SourceMac ':')] }
      hnsNetwork.NetworkAdapterName
    have hpre : i.calls
        ++ [AgentCall.GetHNSNetworkByName i.LocalHNSNetwork,
            AgentCall.SetDatapathID ("0000" ++ strings.Replace hnsNetwork.SourceMac ':')]
        = i.calls ++ [AgentCall.GetHNSNetworkByName i.LocalHNSNetwork]
          ++ [AgentCall.SetDatapathID ("0000" ++ strings.Replace hnsNetwork.SourceMac ':')] := by
      simp
    rw [hpre]
    cases hg : GetOFPort
      { i with
        datapathID := some ("0000" ++ strings.Replace hnsNetwork.SourceMac ':')
        outcomes := i.outcomes.tail.tail
        calls := i.calls ++ [AgentCall.GetHNSNetworkByName i.LocalHNSNetwork]
          ++ [AgentCall.SetDatapathID ("0000" ++ strings.Replace hnsNetwork.SourceMac ':')] }
      hnsNetwork.NetworkAdapterName with
    | mk r i3 =>
      rw [hg] at h3
      cases r with
      | ok ofPort => exact h3
      | error err =>
        dsimp only
        have h4 := CreateUplinkPort_calls i3 hnsNetwork.NetworkAdapterName
          hnsNetwork.NetworkAdapterName i.UplinkOFPort
        cases hc : CreateUplinkPort i3 hnsNetwork.NetworkAdapterName
            hnsNetwork.NetworkAdapterName i.UplinkOFPort with
        | mk r4 i4 =>
          rw [hc] at h4
          cases r4 with
          | error err4 => exact h3.trans h4
          | ok uuid =>
            dsimp only
            have h5 : i4.calls <+: (AddInterface i4
                { InterfaceName := hnsNetwork.NetworkAdapterName
                  OVSPortConfig := some ⟨uuid, i.UplinkOFPort⟩ }).calls :=
              List.prefix_append _ _
            exact ((h3.trans h4).trans h5).trans (moveAddresses_calls _ _)

theorem xtoiDigit_not_separator (c : Char) (h : (xtoiDigit c).isSome = true) :
    c ≠ ':' ∧ c ≠ '-' ∧ c ≠ '.' := by
  refine ⟨fun hc => ?_, fun hc => ?_, fun hc => ?_⟩ <;>
    · rw [hc] at h
      exact absurd h (by decide)

/-- When `xtoi2` reads a byte, the first two characters are hexadecimal digits
and a third character, if there is one, is the separator. -/
theorem xtoi2_some (a b : Char) (rest : List Char) (e : Char) (v : Nat)
    (h : xtoi2 (a :: b :: rest) e = some v) :
    (xtoiDigit a).isSome = true ∧ (xtoiDigit b).isSome = true
      ∧ ∀ c tail, rest = c :: tail → c = e := by
  unfold xtoi2 at h
  split at h
  · cases h
  · rename_i hsep
    refine ⟨?_, ?_, fun c tail hrest => ?_⟩
    · cases ha : xtoiDigit a with
      | none => simp [ha] at h
      | some x => rfl
    · cases hb : xtoiDigit b with
      | none =>
        cases ha : xtoiDigit a <;> simp [ha, hb] at h
      | some y => rfl
    · subst hrest
      by_contra hc
      exact hsep ⟨by simp, by simpa using hc⟩

theorem macLoop_length (e : Char) (n : Nat) (s : List Char) (hw : HardwareAddr)
    (h : macLoop e n s = some hw) : hw.length = n := by
  induction n generalizing s hw with
  | zero =>
    simp only [macLoop, Option.some.injEq] at h
    rw [← h]
    rfl
  | succ n ih =>
    unfold macLoop at h
    cases hx : xtoi2 s e with
    | none => rw [hx] at h; cases h
    | some b =>
      rw [hx] at h
      cases hm : macLoop e n (s.drop 3) with
      | none => rw [hm] at h; cases h
      | some hw1 =>
        rw [hm] at h
        simp only [Option.map_some', Option.some.injEq] at h
        rw [← h, List.length_cons, ih _ _ hm]

/-- A string of `n + 1` pairs of digits with separators between them that the
loop of `ParseMAC` accepts: without its separators it is `2 * (n + 1)`
hexadecimal digits. -/
theorem macLoop_digits (e : Char) (he : ∀ c, (xtoiDigit c).isSome = true → c ≠ e)
    (n : Nat) (s : List Char) (hw : HardwareAddr)
    (h : macLoop e (n + 1) s = some hw) (hlen : s.length = 3 * n + 2) :
    (s.filter fun c => decide (c ≠ e)).length = 2 * (n + 1)
      ∧ ∀ c ∈ s.filter (fun c => decide (c ≠ e)), (xtoiDigit c).isSome = true := by
  induction n generalizing s hw with
  | zero =>
    match s, hlen with
    | [a, b], _ =>
      unfold macLoop at h
      cases hx : xtoi2 [a, b] e with
      | none => rw [hx] at h; cases h
      | some v =>
        obtain ⟨ha, hb, -⟩ := xtoi2_some a b [] e v hx
        have hae := he a ha
        have hbe := he b hb
        refine ⟨by simp [List.filter_cons, hae, hbe], fun c hc => ?_⟩
        simp only [List.filter_cons, hae, hbe, ne_eq, not_false_eq_true, decide_True, if_true,
          List.filter_nil, List.mem_cons, List.mem_singleton, List.not_mem_nil, or_false] at hc
        rcases hc with hc | hc <;> rw [hc] <;> assumption
  | succ n ih =>
    match s, hlen with
    | a :: b :: c :: rest, hlen =>
      have hrest : rest.length = 3 * n + 2 := by
        simp only [List.length_cons] at hlen
        omega
      unfold macLoop at h
      cases hx : xtoi2 (a :: b :: c :: rest) e with
      | none => rw [hx] at h; cases h
      | some v =>
        rw [hx] at h
        obtain ⟨ha, hb, hc⟩ := xtoi2_some a b (c :: rest) e v hx
        have hce : c = e := hc c rest rfl
        have hae := he a ha
        have hbe := he b hb
        cases hm : macLoop e (n + 1) rest with
        | none =>
          simp only [List.drop_succ_cons, List.drop_zero, hm, Option.map_none'] at h
          cases h
        | some hw1 =>
          obtain ⟨h1, h2⟩ := ih rest hw1 hm hrest
          have hf : ((a :: b :: c :: rest).filter fun c => decide (c ≠ e))
              = a :: b :: rest.filter fun c => decide (c ≠ e) := by
            simp [List.filter_cons, hae, hbe, hce]
          rw [hf]
          refine ⟨by simp only [List.length_cons, h1]; omega, fun x hx => ?_⟩
          rcases List.mem_cons.1 hx with hx | hx
          · rw [hx]; exact ha
          · rcases List.mem_cons.1 hx with hx | hx
            · rw [hx]; exact hb
            · exact h2 x hx

/-- A hardware address in the colon-separated form of six bytes that
`ParseMAC` accepts is, without its colons, twelve hexadecimal digits. -/
theorem ParseMAC_colon_digits (m : String) (hw : HardwareAddr)
    (hmac : ParseMAC m = some hw) (hlen : hw.length = 6)
    (hcolon : m.data.getD 2 ' ' = ':') :
    (m.data.filter fun c => decide (c ≠ ':')).length = 12
      ∧ ∀ c ∈ m.data.filter (fun c => decide (c ≠ ':')), (xtoiDigit c).isSome = true := by
  unfold ParseMAC at hmac
  simp only [hcolon, true_or, if_true] at hmac
  split at hmac
  · cases hmac
  · split at hmac
    · cases hmac
    · rename_i hmod
      split at hmac
      · cases hmac
      · have hn := macLoop_length _ _ _ _ hmac
        rw [hlen] at hn
        have hl : m.data.length = 3 * 5 + 2 := by omega
        have h6 : (m.data.length + 1) / 3 = 5 + 1 := by omega
        rw [h6] at hmac
        have := macLoop_digits ':' (fun c hc => (xtoiDigit_not_separator c hc).1) 5 m.data hw
          hmac hl
        simpa using this

/-- C13, amended: for every uplink hardware address in the colon-separated
form of six bytes that `ParseMAC` accepts, the datapath identifier that
`prepareOVSBridge` passes to `SetDatapathID`, the call it makes right after the
network lookup, is "0000" followed by the address without its colons; it
depends on the address alone, has sixteen characters, all of them hexadecimal
digits, and contains no colon, hyphen or dot. -/
theorem prepareOVSBridge_datapathID (i : Initializer) (hnsNetwork : HNSNetwork)
    (hw : HardwareAddr)
    (hok : i.outcomes.headD none = none)
    (hnet : i.hnsNetworks.lookup i.LocalHNSNetwork = some hnsNetwork)
    (hmac : ParseMAC hnsNetwork.SourceMac = some hw) (hlen : hw.length = 6)
    (hcolon : hnsNetwork.SourceMac.data.getD 2 ' ' = ':') :
    i.calls
        ++ [AgentCall.GetHNSNetworkByName i.LocalHNSNetwork,
            AgentCall.SetDatapathID ("0000" ++ strings.Replace hnsNetwork.SourceMac ':')]
      <+: i.prepareOVSBridge.2.calls
    ∧ ("0000" ++ strings.Replace hnsNetwork.SourceMac ':').length = 16
    ∧ (∀ c ∈ ("0000" ++ strings.Replace hnsNetwork.SourceMac ':').data,
        (xtoiDigit c).isSome = true)
    ∧ (∀ c ∈ ("0000" ++ strings.Replace hnsNetwork.SourceMac ':').data,
        c ≠ ':' ∧ c ≠ '-' ∧ c ≠ '.') := by
  obtain ⟨h12, hdigits⟩ := ParseMAC_colon_digits hnsNetwork.SourceMac hw hmac hlen hcolon
  have hall : ∀ c ∈ ("0000" ++ strings.Replace hnsNetwork.SourceMac ':').data,
      (xtoiDigit c).isSome = true := by
    intro c hc
    rw [String.data_append] at hc
    rcases List.mem_append.1 hc with hc | hc
    · have h0 : c = '0' := by
        have : c ∈ ['0', '0', '0', '0'] := hc
        simpa using this
      rw [h0]
      decide
    · exact hdigits c hc
  refine ⟨prepareOVSBridge_calls i hnsNetwork hok hnet, ?_, hall,
    fun c hc => xtoiDigit_not_separator c (hall c hc)⟩
  rw [String.length_append]
  show "0000".length + (hnsNetwork.SourceMac.data.filter fun c => decide (c ≠ ':')).length = 16
  rw [h12]
  rfl

theorem prepareOVSBridge_datapathID_witness :
    ParseMAC "00:15:5d:01:02:03" = some [0, 0x15, 0x5d, 1, 2, 3]
    ∧ ("0000" ++ strings.Replace "00:15:5d:01:02:03" ':').length = 16 :=
  ⟨by decide,
    (prepareOVSBridge_datapathID (initializer0 "00:15:5d:01:02:03" [])
      ⟨"Ethernet0", "00:15:5d:01:02:03", "10.0.0.5/24"⟩ [0, 0x15, 0x5d, 1, 2, 3] (by decide)
      (by decide) (by decide) (by decide) (by decide)).2.1⟩

/-- C13, as stated, fails: the hardware address "00-15-5d-01-02-03" is a form
of six bytes that `ParseMAC` accepts, and with it `prepareOVSBridge` runs to
the end and returns nil; but only colons are removed, so the identifier passed
to `SetDatapathID` is "000000-15-5d-01-02-03", which has twenty-one characters
and contains hyphens. -/
theorem prepareOVSBridge_datapathID_counterexample :
    ParseMAC "00-15-5d-01-02-03" = some [0, 0x15, 0x5d, 1, 2, 3]
    ∧ (initializer0 "00-15-5d-01-02-03" []).prepareOVSBridge.1 = none
    ∧ (initializer0 "00-15-5d-01-02-03" []).prepareOVSBridge.2.calls.take 2
        = [AgentCall.GetHNSNetworkByName "antrea-hnsnetwork",
            AgentCall.SetDatapathID "000000-15-5d-01-02-03"]
    ∧ "000000-15-5d-01-02-03".length = 21
    ∧ '-' ∈ "000000-15-5d-01-02-03".data := by
  decide

end Antrea
